import Mathlib

/-!
# MSM MDP interrupt arbitration (drivers/video/msm/mdp.c)

A shallow embedding of the interrupt-mask arbiter, the interrupt handler and the
DMA request path of `mdp.c`.

Modelling conventions.

* `uint32_t` values are natural numbers; `&`, `|` are `&&&`, `|||` and the 32-bit
  complement `~m` is `not32 m`.
* Pointers to callbacks are `Option Nat` (`none` is `NULL`); other pointers and
  function pointers are opaque natural numbers, with `0` for `NULL`.
* Every externally visible action (register access, clock and interrupt-line control,
  callback invocation, wake-up, log line) is appended to the ghost field `trace`.
* The spin lock makes every function body atomic, so each function is one sequential
  state transformer.
* `BUG()`, a call through a `NULL` function pointer and an array access past the end
  of `out_if` end the execution: functions that can do so return `Res`.
* The function-local `static int timeout_count` of `mdp_dma_wait` is passed in and
  handed back explicitly; the interface identifiers and `MSM_MDP_NUM_INTERFACES` come
  from headers outside these sources and are parameters.
-/

namespace Mdp

/-- Hardware registers accessed through `mdp_readl` and `mdp_writel`. -/
inductive Reg
  | MDP_INTR_STATUS
  | MDP_INTR_CLEAR
  | MDP_INTR_ENABLE
deriving DecidableEq

/-- Log lines printed by the driver, named after their text. -/
inductive Msg
  | irq_already_on
  | irq_already_off
  | unknown_interface
  | busy
  | timeout_waiting
  | invalid_interface
  | already_registered
  | not_registered
  | dma_failed
deriving DecidableEq

/-- Externally visible actions, in program order. -/
inductive Action
  | clk_set_rate (rate : Nat)
  | clk_enable (clk : Option Nat)
  | clk_disable (clk : Nat)
  | enable_irq
  | disable_irq_nosync
  | mdp_writel (val : Nat) (reg : Reg)
  | mdp_readl (reg : Reg)
  | clk_ctl_readl (offset : Nat)
  | dma_cb_func (i : Nat) (cb : Nat)
  | irq_cb_func (i : Nat) (cb : Nat)
  | wake_up (i : Nat)
  | init_waitqueue_head (i : Nat)
  | mdp_ppp_handle_isr (status : Nat)
  | dma_start (fn priv addr stride width height x y : Nat)
  | pr_err (m : Msg)
deriving DecidableEq

/-- One slot of `mdp->out_if[]`. -/
structure mdp_out_interface where
  registered : Bool
  priv : Nat
  dma_mask : Nat
  irq_mask : Nat
  dma_start : Nat
  dma_cb : Option Nat
  irq_cb : Option Nat
deriving DecidableEq

/-- The driver state: the file-level `mdp_irq_mask`, the fields of `struct mdp_info`
that the arbiter reads, and the ghost `trace`. Only the slots `out_if i` with
`i < MSM_MDP_NUM_INTERFACES` exist in the C array. -/
structure mdp_info where
  mdp_irq_mask : Nat
  clk : Option Nat
  out_if : Nat → mdp_out_interface
  trace : List Action

/-- Ways an execution can end without returning. -/
inductive Fault
  | BUG
  | null_call
  | out_of_bounds
deriving DecidableEq

/-- Result of a function that may not return: either it returns `ret` in state `s`,
or the execution stops with a fault in state `s`. -/
inductive Res (α : Type)
  | ok (ret : α) (s : mdp_info)
  | fault (f : Fault) (s : mdp_info)

/-- The state in which a result leaves the driver. -/
def Res.state {α : Type} : Res α → mdp_info
  | .ok _ s => s
  | .fault _ s => s

/-- The complement `~m` of a `uint32_t`. -/
def not32 (m : Nat) : Nat := 4294967295 - m % 4294967296

/-- Append actions to the trace. -/
def emit (s : mdp_info) (acts : List Action) : mdp_info :=
  { s with trace := s.trace ++ acts }

/-- Store `v` into slot `i` of `out_if`. -/
def set_out_if (s : mdp_info) (i : Nat) (v : mdp_out_interface) : mdp_info :=
  { s with out_if := fun j => if j = i then v else s.out_if j }

/-- The power-up actions of `locked_enable_mdp_irq`. -/
def power_up (s : mdp_info) : List Action :=
  [.clk_set_rate 128000000, .clk_enable s.clk, .enable_irq]

/-- The power-down actions of `locked_disable_mdp_irq`; `clk_disable` is guarded by
`if (mdp->clk)`. -/
def power_down (s : mdp_info) : List Action :=
  [.disable_irq_nosync] ++
    (match s.clk with
      | some c => [.clk_disable c]
      | none => []) ++
    [.clk_set_rate 0]

/-- The function `locked_enable_mdp_irq`. -/
def locked_enable_mdp_irq (s : mdp_info) (mask : Nat) : Res Int :=
  if mask = 0 then .fault .BUG s
  else if s.mdp_irq_mask &&& mask ≠ 0 then
    .ok (-1) (emit s [.pr_err .irq_already_on])
  else
    let s1 := if s.mdp_irq_mask = 0 then emit s (power_up s) else s
    let s2 := emit s1 [.mdp_writel mask .MDP_INTR_CLEAR]
    let s3 := { s2 with mdp_irq_mask := s2.mdp_irq_mask ||| mask }
    .ok 0 (emit s3 [.mdp_writel s3.mdp_irq_mask .MDP_INTR_ENABLE])

/-- The function `enable_mdp_irq`: the locked body under the spin lock. -/
def enable_mdp_irq (s : mdp_info) (mask : Nat) : Res Int :=
  locked_enable_mdp_irq s mask

/-- The function `locked_disable_mdp_irq`. -/
def locked_disable_mdp_irq (s : mdp_info) (mask : Nat) : Int × mdp_info :=
  if s.mdp_irq_mask &&& mask = 0 then
    (-1, emit s [.pr_err .irq_already_off])
  else
    let s1 := { s with mdp_irq_mask := s.mdp_irq_mask &&& not32 mask }
    let s2 := emit s1 [.mdp_writel s1.mdp_irq_mask .MDP_INTR_ENABLE]
    let s3 := if s2.mdp_irq_mask = 0 then emit s2 (power_down s2) else s2
    (0, s3)

/-- The function `disable_mdp_irq`: the locked body under the spin lock. -/
def disable_mdp_irq (s : mdp_info) (mask : Nat) : Int × mdp_info :=
  locked_disable_mdp_irq s mask

/-- One iteration of the `for` loop of `mdp_isr`, for slot `i`. -/
def isr_iter (i : Nat) (status : Nat) (s : mdp_info) : Res Unit :=
  let s1 :=
    if status &&& (s.out_if i).dma_mask ≠ 0 then
      let s0 :=
        match (s.out_if i).dma_cb with
        | some cb =>
          set_out_if (emit s [.dma_cb_func i cb]) i { s.out_if i with dma_cb := none }
        | none => s
      emit s0 [.wake_up i]
    else s
  if status &&& (s1.out_if i).irq_mask ≠ 0 then
    match (s1.out_if i).irq_cb with
    | some cb =>
      .ok () (set_out_if (emit s1 [.irq_cb_func i cb]) i { s1.out_if i with irq_cb := none })
    | none => .fault .null_call s1
  else .ok () s1

/-- The `for` loop of `mdp_isr`: slots `i`, `i + 1`, ..., `i + n - 1` in order,
stopping at the first fault. -/
def isr_loop (status : Nat) : Nat → Nat → mdp_info → Res Unit
  | _, 0, s => .ok () s
  | i, n + 1, s =>
    match isr_iter i status s with
    | .ok _ s1 => isr_loop status (i + 1) n s1
    | .fault f s1 => .fault f s1

/-- The function `mdp_isr`; `raw` is the value read from `MDP_INTR_STATUS` and `N` is
`MSM_MDP_NUM_INTERFACES`. -/
def mdp_isr (N : Nat) (s : mdp_info) (raw : Nat) : Res Unit :=
  let s1 := emit s [.mdp_readl .MDP_INTR_STATUS, .mdp_writel raw .MDP_INTR_CLEAR]
  let status := raw &&& s1.mdp_irq_mask
  match isr_loop status 0 N s1 with
  | .fault f s2 => .fault f s2
  | .ok _ s2 =>
    let s3 := emit s2 [.mdp_ppp_handle_isr status]
    let s4 := if status ≠ 0 then (locked_disable_mdp_irq s3 status).2 else s3
    .ok () s4

/-- The value of `ETIMEDOUT`. -/
def ETIMEDOUT : Int := 110

/-- The value of `EINVAL`. -/
def EINVAL : Int := 22

/-- The function `mdp_wait` from the point where `wait_event_timeout` has returned:
the re-check of the mask under the lock. What other contexts do while the caller
sleeps is a sequence of other steps before this one. -/
def mdp_wait (s : mdp_info) (mask : Nat) : Int × mdp_info :=
  if s.mdp_irq_mask &&& mask ≠ 0 then
    let s1 := emit s [.pr_err .timeout_waiting, .clk_ctl_readl 0x0000, .clk_ctl_readl 0x0004,
      .clk_ctl_readl 0x001C, .clk_ctl_readl 0x0220, .clk_ctl_readl 0x0224,
      .clk_ctl_readl 0x023C]
    (-ETIMEDOUT, (locked_disable_mdp_irq s1 mask).2)
  else (0, s)

/-- The function `mdp_dma`. The guard of the source is
`interface < 0 || interface > MSM_MDP_NUM_INTERFACES || !out_if[interface].registered`;
with `interface = N` the third operand reads past the `N` slots of the array. The call
`out_if->dma_start(...)` is not guarded: with a `NULL` `dma_start` it is a call through
a `NULL` pointer, made after the bit was enabled and the callback stored. -/
def mdp_dma (N : Nat) (s : mdp_info) (addr stride width height x y : Nat)
    (callback : Option Nat) (interface : Int) : Res Unit :=
  if interface < 0 ∨ interface > (N : Int) then
    .fault .BUG (emit s [.pr_err .unknown_interface])
  else if N ≤ interface.toNat then
    .fault .out_of_bounds s
  else if (s.out_if interface.toNat).registered = false then
    .fault .BUG (emit s [.pr_err .unknown_interface])
  else
    let i := interface.toNat
    match locked_enable_mdp_irq s (s.out_if i).dma_mask with
    | .fault f s1 => .fault f s1
    | .ok ret s1 =>
      if ret ≠ 0 then .ok () (emit s1 [.pr_err .busy])
      else
        let s2 := set_out_if s1 i { s1.out_if i with dma_cb := callback }
        if (s2.out_if i).dma_start = 0 then .fault .null_call s2
        else .ok () (emit s2 [.dma_start (s2.out_if i).dma_start (s2.out_if i).priv
          addr stride width height x y])

/-- The function `mdp_out_if_register`. -/
def mdp_out_if_register (N : Nat) (s : mdp_info) (interface : Int)
    (private_data dma_mask dma_start : Nat) : Int × mdp_info :=
  if interface < 0 ∨ interface ≥ (N : Int) then
    (-EINVAL, emit s [.pr_err .invalid_interface])
  else
    let i := interface.toNat
    if (s.out_if i).registered then
      (-EINVAL, emit s [.pr_err .already_registered])
    else
      let s1 := emit s [.init_waitqueue_head i]
      (0, set_out_if s1 i { s1.out_if i with
        registered := true, priv := private_data, dma_mask := dma_mask,
        dma_start := dma_start, dma_cb := none })

/-- The function `mdp_out_if_req_irq`. -/
def mdp_out_if_req_irq (N : Nat) (s : mdp_info) (interface : Int) (mask : Nat)
    (cb : Option Nat) : Res Int :=
  if interface < 0 ∨ interface ≥ (N : Int) then
    .fault .BUG (emit s [.pr_err .invalid_interface])
  else if (s.out_if interface.toNat).registered = false then
    .fault .BUG (emit s [.pr_err .not_registered])
  else
    let i := interface.toNat
    if mask ≠ 0 then
      match locked_enable_mdp_irq s mask with
      | .fault f s1 => .fault f s1
      | .ok ret s1 =>
        if ret ≠ 0 then .ok ret (emit s1 [.pr_err .busy])
        else .ok 0 (set_out_if s1 i { s1.out_if i with irq_mask := mask, irq_cb := cb })
    else
      let s1 := (locked_disable_mdp_irq s mask).2
      .ok 0 (set_out_if s1 i { s1.out_if i with irq_mask := 0, irq_cb := none })

/-- The interface identifiers of `mach/msm_fb.h` that `mdp_dma_wait` switches on. The
header is not part of the sources at hand, so their values are parameters. -/
structure msm_interfaces where
  MSM_MDDI_PMDH_INTERFACE : Int
  MSM_MDDI_EMDH_INTERFACE : Int
  MSM_LCDC_INTERFACE : Int

/-- The constant `MDP_MAX_TIMEOUTS`. -/
def MDP_MAX_TIMEOUTS : Int := 20

/-- The function `mdp_dma_wait`. Its function-local `static int timeout_count` is passed
in and, when the call returns, handed back as the result. The wait itself is
`mdp_wait` on the interface's `dma_mask`. -/
def mdp_dma_wait (N : Nat) (ids : msm_interfaces) (timeout_count : Int) (s : mdp_info)
    (interface : Int) : Res Int :=
  if interface = ids.MSM_MDDI_PMDH_INTERFACE ∨ interface = ids.MSM_MDDI_EMDH_INTERFACE ∨
      interface = ids.MSM_LCDC_INTERFACE then
    if interface < 0 ∨ N ≤ interface.toNat then .fault .out_of_bounds s
    else if (s.out_if interface.toNat).registered = false then .fault .BUG s
    else
      let r := mdp_wait s (s.out_if interface.toNat).dma_mask
      let count := if r.1 = -ETIMEDOUT then timeout_count + 1 else 0
      if count > MDP_MAX_TIMEOUTS then .fault .BUG (emit r.2 [.pr_err .dma_failed])
      else .ok count r.2
  else .fault .BUG (emit s [.pr_err .unknown_interface])

/-- Successive calls of `mdp_dma_wait` for one interface, made in the given states (what
happens between two calls is arbitrary, but only `mdp_dma_wait` touches the counter).
`k` calls have been made before and the counter is `count`. The result is `inl n` when
the `n`-th call ends in a fault and `inr c` when all calls return and leave the counter
at `c`. -/
def dma_wait_calls (N : Nat) (ids : msm_interfaces) (interface : Int) :
    Nat → Int → List mdp_info → Nat ⊕ Int
  | _, count, [] => .inr count
  | k, count, s :: rest =>
    match mdp_dma_wait N ids count s interface with
    | .ok count1 _ => dma_wait_calls N ids interface (k + 1) count1 rest
    | .fault _ _ => .inl (k + 1)

/-- One call into the driver, as made by a client, the wait path or the interrupt
line. -/
inductive Step
  | enable (mask : Nat)
  | disable (mask : Nat)
  | dma (addr stride width height x y : Nat) (callback : Option Nat) (interface : Int)
  | wait (mask : Nat)
  | req_irq (interface : Int) (mask : Nat) (cb : Option Nat)
  | isr (raw : Nat)
  | register (interface : Int) (private_data dma_mask dma_start : Nat)

/-- Forget the return value of a result. -/
def Res.void {α : Type} : Res α → Res Unit
  | .ok _ s => .ok () s
  | .fault f s => .fault f s

/-- Execute one call. -/
def step (N : Nat) (s : mdp_info) : Step → Res Unit
  | .enable mask => (enable_mdp_irq s mask).void
  | .disable mask => .ok () (disable_mdp_irq s mask).2
  | .dma addr stride width height x y callback interface =>
    mdp_dma N s addr stride width height x y callback interface
  | .wait mask => .ok () (mdp_wait s mask).2
  | .req_irq interface mask cb => (mdp_out_if_req_irq N s interface mask cb).void
  | .isr raw => mdp_isr N s raw
  | .register interface private_data dma_mask dma_start =>
    .ok () (mdp_out_if_register N s interface private_data dma_mask dma_start).2

/-- Execute a sequence of calls in order; a fault ends the execution and the remaining
calls are not made. -/
def run (N : Nat) : mdp_info → List Step → Res Unit
  | s, [] => .ok () s
  | s, c :: rest =>
    match step N s c with
    | .ok _ s1 => run N s1 rest
    | .fault f s1 => .fault f s1

/-- The actions that switch the interrupt line on and off; every power-up sequence
contains exactly one `enable_irq` and every power-down sequence exactly one
`disable_irq_nosync`. -/
def power_event : Action → Bool
  | .enable_irq => true
  | .disable_irq_nosync => true
  | _ => false

/-- The power events of a trace, in order. -/
def power_events (t : List Action) : List Action := t.filter power_event

/-- The number of power-up sequences in a trace. -/
def power_ups (t : List Action) : Nat := t.count .enable_irq

/-- The number of power-down sequences in a trace. -/
def power_downs (t : List Action) : Nat := t.count .disable_irq_nosync

/-- The history of `k` complete power cycles: up, down, up, down, ... -/
def cycles : Nat → List Action
  | 0 => []
  | k + 1 => cycles k ++ [.enable_irq, .disable_irq_nosync]

/-- The power invariant: the power events so far are complete up/down cycles, followed
by one more power-up exactly when the mask is non-empty. -/
def power_inv (s : mdp_info) : Prop :=
  ∃ k, power_events s.trace =
    cycles k ++ (if s.mdp_irq_mask = 0 then [] else [.enable_irq])

/-- The scenario: register interface 0 with DMA bit 1, submit a transfer with callback
42, then the interrupt fires with status 1. -/
def scenario : List Step :=
  [.register 0 9 1 7, .dma 100 4 2 2 0 0 (some 42) 0, .isr 1]

/-- Actions that change hardware state: register writes, clock control and
interrupt-line control. -/
def Action.hw_write : Action → Bool
  | .clk_set_rate _ => true
  | .clk_enable _ => true
  | .clk_disable _ => true
  | .enable_irq => true
  | .disable_irq_nosync => true
  | .mdp_writel _ _ => true
  | _ => false

/-- The hardware-changing actions of a trace, in order. -/
def hw_writes (t : List Action) : List Action := t.filter Action.hw_write

/-- A slot as `kzalloc` leaves it. -/
def zero_slot : mdp_out_interface :=
  { registered := false, priv := 0, dma_mask := 0, irq_mask := 0, dma_start := 0,
    dma_cb := none, irq_cb := none }

/-- A state with the given mask and clock handle, no registered interface and an
empty trace. -/
def bare (m : Nat) (clk : Option Nat) : mdp_info :=
  { mdp_irq_mask := m, clk := clk, out_if := fun _ => zero_slot, trace := [] }

/-- Recognises the invocation of an interface's `dma_start` operation. -/
def Action.is_dma_start : Action → Bool
  | .dma_start _ _ _ _ _ _ _ _ => true
  | _ => false

/-- A state with mask `m` in which slot 0 is registered with DMA bit 1, start
operation 7 and private data 9. -/
def one_registered (m : Nat) : mdp_info :=
  { mdp_irq_mask := m, clk := some 1,
    out_if := fun j => if j = 0 then
      { registered := true, priv := 9, dma_mask := 1, irq_mask := 0, dma_start := 7,
        dma_cb := none, irq_cb := none } else zero_slot,
    trace := [] }

/-- The fault a result ended with, if any. -/
def Res.fault_of {α : Type} : Res α → Option Fault
  | .ok _ _ => none
  | .fault f _ => some f

/-- Calls that lead to a state in which interface 0 has its secondary interrupt bit 4
enabled with a `NULL` callback while interface 1 has a transfer outstanding with
callback 42: both interfaces are registered, `mdp_out_if_req_irq` is called for
interface 0 with mask 4 and no callback, and `mdp_dma` is called for interface 1. -/
def irq_without_callback : List Step :=
  [.register 0 9 1 7, .register 1 9 2 7, .req_irq 0 4 none,
   .dma 100 4 2 2 0 0 (some 42) 1]

/-- The state reached by `irq_without_callback` from an idle driver with three
interface slots. -/
def irq_without_callback_state : mdp_info :=
  (run 3 (bare 0 (some 1)) irq_without_callback).state

/-- The slot after the interrupt handler has serviced it for `status`: each callback
whose mask intersects `status` has been cleared. -/
def serviced (status : Nat) (o : mdp_out_interface) : mdp_out_interface :=
  { o with
    dma_cb := if status &&& o.dma_mask ≠ 0 then none else o.dma_cb
    irq_cb := if status &&& o.irq_mask ≠ 0 then none else o.irq_cb }

/-- The actions one loop iteration of the interrupt handler performs for slot `i`
holding `o`, when it does not stop at a `NULL` callback. -/
def iter_actions (i status : Nat) (o : mdp_out_interface) : List Action :=
  (if status &&& o.dma_mask ≠ 0 then
    (match o.dma_cb with
      | some cb => [.dma_cb_func i cb]
      | none => []) ++ [.wake_up i]
   else []) ++
  (if status &&& o.irq_mask ≠ 0 then
    (match o.irq_cb with
      | some cb => [.irq_cb_func i cb]
      | none => [])
   else [])

/-- The actions of the loop over slots `i`, ..., `i + n - 1`. -/
def loop_actions (status : Nat) (out_if : Nat → mdp_out_interface) : Nat → Nat → List Action
  | _, 0 => []
  | i, n + 1 => iter_actions i status (out_if i) ++ loop_actions status out_if (i + 1) n

/-- No slot below `N` has a secondary interrupt bit in `status` together with a `NULL`
`irq_cb`. -/
def irq_cbs_present (N : Nat) (s : mdp_info) (status : Nat) : Prop :=
  ∀ j, j < N → status &&& (s.out_if j).irq_mask ≠ 0 → (s.out_if j).irq_cb ≠ none

/-- The actions performed on the way from state `s` to state `s1`. -/
def new_actions (s s1 : mdp_info) : List Action := s1.trace.drop s.trace.length

/-- The state after interface 0 (DMA bit 1) has been registered and a transfer with
callback 42 has been submitted on it. -/
def transfer_pending : mdp_info :=
  (run 3 (bare 0 (some 1)) [.register 0 9 1 7, .dma 100 4 2 2 0 0 (some 42) 0]).state

/-- Example values for the interface identifiers, used in concrete evaluations. -/
def example_ids : msm_interfaces :=
  { MSM_MDDI_PMDH_INTERFACE := 0, MSM_MDDI_EMDH_INTERFACE := 1, MSM_LCDC_INTERFACE := 2 }

/-- Every slot that is not registered has an empty `irq_cb`. -/
def unregistered_clean (s : mdp_info) : Prop :=
  ∀ j, (s.out_if j).registered = false → (s.out_if j).irq_cb = none

/-- An interface's `dma_cb` is stored only while some bit of its `dma_mask` is set in
`mdp_irq_mask`. -/
def dma_cb_inv (s : mdp_info) : Prop :=
  ∀ j, (s.out_if j).dma_cb ≠ none → s.mdp_irq_mask &&& (s.out_if j).dma_mask ≠ 0

/-- The calls of the transfer path that never release a bit behind a stored callback:
registration (with a 32-bit `dma_mask`), `mdp_dma`, the interrupt handler, and an
`mdp_wait` whose re-check in state `s` finds no waited bit pending. -/
def dma_path (s : mdp_info) : Step → Bool
  | .register _ _ dma_mask _ => decide (dma_mask < 2 ^ 32)
  | .dma _ _ _ _ _ _ _ _ => true
  | .isr _ => true
  | .wait mask => decide (s.mdp_irq_mask &&& mask = 0)
  | _ => false

/-- Every call of the sequence, made from `s` on, is a `dma_path` call in the state in
which it is made. -/
def dma_path_run (N : Nat) : mdp_info → List Step → Bool
  | _, [] => true
  | s, c :: rest =>
    dma_path s c &&
      (match step N s c with
        | .ok _ s1 => dma_path_run N s1 rest
        | .fault _ _ => true)

/-- The invariant of the transfer path: the mask and every `dma_mask` are 32-bit
values, no secondary interrupt mask is set, no slot at or above `N` holds a callback,
and `dma_cb_inv` holds. -/
def dma_path_inv (N : Nat) (s : mdp_info) : Prop :=
  s.mdp_irq_mask < 2 ^ 32 ∧
  (∀ j, (s.out_if j).dma_mask < 2 ^ 32) ∧
  (∀ j, (s.out_if j).irq_mask = 0) ∧
  (∀ j, N ≤ j → (s.out_if j).dma_cb = none) ∧
  dma_cb_inv s

/-- The state after a transfer with callback 42 on interface 0 has timed out in
`mdp_wait`. -/
def timed_out_transfer : mdp_info :=
  (run 3 (bare 0 (some 1))
    [.register 0 9 1 7, .dma 100 4 2 2 0 0 (some 42) 0, .wait 1]).state

/-- The state after the bit of a transfer with callback 42 on interface 0 has been
released by `disable_mdp_irq`. -/
def disabled_transfer : mdp_info :=
  (run 3 (bare 0 (some 1))
    [.register 0 9 1 7, .dma 100 4 2 2 0 0 (some 42) 0, .disable 1]).state

/-- Calls after which interface 0 has its secondary interrupt bit 4 enabled with a
`NULL` callback: registration, then `mdp_out_if_req_irq` with mask 4 and no callback. -/
def null_irq_request : List Step :=
  [.register 0 9 1 7, .req_irq 0 4 none]

/-- Calls after which interface 0's `irq_mask` is still 4 while its `irq_cb` has been
consumed and bit 4 is enabled again: the secondary interrupt is requested with callback
5, the handler services it, and bit 4 is then enabled through `enable_mdp_irq`. -/
def stale_irq_mask : List Step :=
  [.register 0 9 1 7, .req_irq 0 4 (some 5), .isr 4, .enable 4]

/-- The state after interface 0 has been registered with DMA bit 1 and a `NULL`
`dma_start`, which `mdp_out_if_register` accepts. -/
def null_start_registered : mdp_info :=
  (run 3 (bare 0 (some 1)) [.register 0 9 1 0]).state

/-! ## Bit-level facts -/

theorem testBit_not32 (m i : Nat) :
    (not32 m).testBit i = (decide (i < 32) && !m.testBit i) := by
  have h : m % 4294967296 < 2 ^ 32 := Nat.mod_lt _ (by norm_num)
  have e : not32 m = 2 ^ 32 - (m % 4294967296 + 1) := by
    unfold not32
    omega
  rw [e, Nat.testBit_two_pow_sub_succ h]
  have e2 : (4294967296 : Nat) = 2 ^ 32 := by norm_num
  rw [e2, Nat.testBit_mod_two_pow]
  by_cases hi : i < 32 <;> simp [hi]

theorem land_not32_land (m b : Nat) : (m &&& not32 b) &&& b = 0 := by
  apply Nat.eq_of_testBit_eq
  intro i
  simp only [Nat.testBit_and, testBit_not32, Nat.zero_testBit]
  by_cases hi : i < 32 <;> cases hb : b.testBit i <;> simp [hi]

/-! ## The mask arbiter -/

/-- C1: for every state and every non-zero `bits`, `locked_enable_mdp_irq` is rejected
(returns `-1`) whenever some requested bit is already set in `mdp_irq_mask`; the only
action is the log line, so the mask, the clock handle and the slots are unchanged, no
power-up is performed and no register is written. -/
theorem locked_enable_rejects_pending (s : mdp_info) (bits : Nat) (hb : bits ≠ 0)
    (hp : s.mdp_irq_mask &&& bits ≠ 0) :
    locked_enable_mdp_irq s bits = .ok (-1) (emit s [.pr_err .irq_already_on]) ∧
    (locked_enable_mdp_irq s bits).state.mdp_irq_mask = s.mdp_irq_mask ∧
    (locked_enable_mdp_irq s bits).state.out_if = s.out_if ∧
    (locked_enable_mdp_irq s bits).state.trace = s.trace ++ [.pr_err .irq_already_on] ∧
    hw_writes (locked_enable_mdp_irq s bits).state.trace = hw_writes s.trace := by
  have e : locked_enable_mdp_irq s bits = .ok (-1) (emit s [.pr_err .irq_already_on]) := by
    simp [locked_enable_mdp_irq, hb, hp]
  rw [e]
  simp [Res.state, emit, hw_writes, Action.hw_write]

theorem locked_enable_rejects_pending_witness :
    (locked_enable_mdp_irq (bare 5 (some 1)) 6).state.mdp_irq_mask = 5 ∧
    hw_writes (locked_enable_mdp_irq (bare 5 (some 1)) 6).state.trace = [] :=
  have h := locked_enable_rejects_pending (bare 5 (some 1)) 6 (by decide) (by decide)
  ⟨h.2.1, h.2.2.2.2⟩

/-- The successful path of `locked_enable_mdp_irq`, as one equation. -/
theorem locked_enable_ok (s : mdp_info) (mask : Nat) (hb : mask ≠ 0)
    (hd : s.mdp_irq_mask &&& mask = 0) :
    locked_enable_mdp_irq s mask = .ok 0
      { s with
        mdp_irq_mask := s.mdp_irq_mask ||| mask
        trace := s.trace ++
          (if s.mdp_irq_mask = 0 then
            [.clk_set_rate 128000000, .clk_enable s.clk, .enable_irq] else []) ++
          [.mdp_writel mask .MDP_INTR_CLEAR,
           .mdp_writel (s.mdp_irq_mask ||| mask) .MDP_INTR_ENABLE] } := by
  by_cases h0 : s.mdp_irq_mask = 0 <;>
    simp [locked_enable_mdp_irq, hb, hd, h0, emit, power_up]

/-- C2: for every state and every non-zero `bits` disjoint from `mdp_irq_mask`,
`locked_enable_mdp_irq` returns `0`, the new mask is the old mask OR `bits`, and the
actions appended to the trace are, in order: the power-up sequence (`clk_set_rate` to
128000000, `clk_enable`, `enable_irq`) exactly when the old mask was `0`, then the write
of `bits` to `MDP_INTR_CLEAR`, then the write of the new mask to `MDP_INTR_ENABLE`. -/
theorem locked_enable_success (s : mdp_info) (bits : Nat) (hb : bits ≠ 0)
    (hd : s.mdp_irq_mask &&& bits = 0) :
    locked_enable_mdp_irq s bits = .ok 0
      { s with
        mdp_irq_mask := s.mdp_irq_mask ||| bits
        trace := s.trace ++
          (if s.mdp_irq_mask = 0 then
            [.clk_set_rate 128000000, .clk_enable s.clk, .enable_irq] else []) ++
          [.mdp_writel bits .MDP_INTR_CLEAR,
           .mdp_writel (s.mdp_irq_mask ||| bits) .MDP_INTR_ENABLE] } := by
  exact locked_enable_ok s bits hb hd

theorem locked_enable_success_witness :
    locked_enable_mdp_irq (bare 0 (some 1)) 4 = .ok 0
      { bare 0 (some 1) with
        mdp_irq_mask := 4
        trace := [.clk_set_rate 128000000, .clk_enable (some 1), .enable_irq,
          .mdp_writel 4 .MDP_INTR_CLEAR, .mdp_writel 4 .MDP_INTR_ENABLE] } :=
  locked_enable_success (bare 0 (some 1)) 4 (by decide) (by decide)

/-- C3: for every state and every `bits`, `locked_disable_mdp_irq` is rejected (returns
`-1`) if and only if no bit of `bits` is set in `mdp_irq_mask`; a rejected call only
logs, so the mask is unchanged, `MDP_INTR_ENABLE` is not written and nothing is powered
down; and a second disable of the same bits right after any disable is such a
rejection. -/
theorem locked_disable_rejects_iff (s : mdp_info) (bits : Nat) :
    ((locked_disable_mdp_irq s bits).1 = -1 ↔ s.mdp_irq_mask &&& bits = 0) ∧
    ((locked_disable_mdp_irq s bits).1 = -1 ∨ (locked_disable_mdp_irq s bits).1 = 0) ∧
    (s.mdp_irq_mask &&& bits = 0 →
      (locked_disable_mdp_irq s bits).2 = emit s [.pr_err .irq_already_off] ∧
      (locked_disable_mdp_irq s bits).2.mdp_irq_mask = s.mdp_irq_mask ∧
      hw_writes (locked_disable_mdp_irq s bits).2.trace = hw_writes s.trace) ∧
    locked_disable_mdp_irq (locked_disable_mdp_irq s bits).2 bits =
      (-1, emit (locked_disable_mdp_irq s bits).2 [.pr_err .irq_already_off]) := by
  by_cases h : s.mdp_irq_mask &&& bits = 0
  · simp [locked_disable_mdp_irq, h, emit, hw_writes, Action.hw_write]
  · have h2 : (s.mdp_irq_mask &&& not32 bits) &&& bits = 0 := land_not32_land _ _
    by_cases h0 : s.mdp_irq_mask &&& not32 bits = 0 <;>
      simp [locked_disable_mdp_irq, h, emit, h0, h2]

theorem locked_disable_rejects_iff_witness :
    (locked_disable_mdp_irq (bare 5 (some 1)) 2).1 = -1 ∧
    (locked_disable_mdp_irq (bare 5 (some 1)) 2).2.mdp_irq_mask = 5 ∧
    hw_writes (locked_disable_mdp_irq (bare 5 (some 1)) 2).2.trace = [] ∧
    (locked_disable_mdp_irq (locked_disable_mdp_irq (bare 5 (some 1)) 5).2 5).1 = -1 :=
  have h := locked_disable_rejects_iff (bare 5 (some 1)) 2
  have h5 := locked_disable_rejects_iff (bare 5 (some 1)) 5
  ⟨h.1.2 (by decide), (h.2.2.1 (by decide)).2.1, (h.2.2.1 (by decide)).2.2,
    congrArg Prod.fst h5.2.2.2⟩

/-- Counterexample to C4 as stated: with a null clock handle, disabling the only
pending bit succeeds and empties the mask, yet no `clk_disable` is performed; the
actions are the register write, `disable_irq_nosync` and `clk_set_rate` to 0. -/
theorem locked_disable_null_clk_skips_clk_disable :
    (locked_disable_mdp_irq (bare 1 none) 1).1 = 0 ∧
    (locked_disable_mdp_irq (bare 1 none) 1).2.mdp_irq_mask = 0 ∧
    (locked_disable_mdp_irq (bare 1 none) 1).2.trace =
      [.mdp_writel 0 .MDP_INTR_ENABLE, .disable_irq_nosync, .clk_set_rate 0] ∧
    ¬ ∃ c, Action.clk_disable c ∈ (locked_disable_mdp_irq (bare 1 none) 1).2.trace := by
  have e : locked_disable_mdp_irq (bare 1 none) 1 =
      (0, { bare 1 none with
        mdp_irq_mask := 0
        trace := [.mdp_writel 0 .MDP_INTR_ENABLE, .disable_irq_nosync, .clk_set_rate 0] }) := by
    simp [locked_disable_mdp_irq, bare, emit, power_down, not32]
  rw [e]
  simp

/-- C4 (amended): for every state and every `bits` that intersects `mdp_irq_mask`,
`locked_disable_mdp_irq` returns `0`, the new mask is the old mask AND NOT `bits` (bit
by bit over the 32 bits of the word), the new mask is written to `MDP_INTR_ENABLE`, and
the power-down sequence follows exactly when the new mask is `0`: `disable_irq_nosync`,
then `clk_disable` only if the clock handle is non-null, then `clk_set_rate` to 0. -/
theorem locked_disable_success (s : mdp_info) (bits : Nat)
    (hp : s.mdp_irq_mask &&& bits ≠ 0) :
    locked_disable_mdp_irq s bits = (0,
      { s with
        mdp_irq_mask := s.mdp_irq_mask &&& not32 bits
        trace := s.trace ++
          [.mdp_writel (s.mdp_irq_mask &&& not32 bits) .MDP_INTR_ENABLE] ++
          (if s.mdp_irq_mask &&& not32 bits = 0 then
            [.disable_irq_nosync] ++
              (match s.clk with
                | some c => [.clk_disable c]
                | none => []) ++
              [.clk_set_rate 0]
           else []) }) ∧
    (∀ i, i < 32 → (locked_disable_mdp_irq s bits).2.mdp_irq_mask.testBit i =
      (s.mdp_irq_mask.testBit i && !bits.testBit i)) ∧
    (∀ i, 32 ≤ i → (locked_disable_mdp_irq s bits).2.mdp_irq_mask.testBit i = false) := by
  have e : (locked_disable_mdp_irq s bits).2.mdp_irq_mask = s.mdp_irq_mask &&& not32 bits := by
    by_cases h0 : s.mdp_irq_mask &&& not32 bits = 0 <;>
      simp [locked_disable_mdp_irq, hp, emit, h0]
  refine ⟨?_, ?_, ?_⟩
  · by_cases h0 : s.mdp_irq_mask &&& not32 bits = 0 <;>
      simp [locked_disable_mdp_irq, hp, emit, h0, power_down]
  · intro i hi
    rw [e, Nat.testBit_and, testBit_not32]
    simp [hi]
  · intro i hi
    rw [e, Nat.testBit_and, testBit_not32]
    simp [Nat.not_lt.mpr hi]

theorem locked_disable_success_witness :
    (locked_disable_mdp_irq (bare 5 (some 7)) 6).1 = 0 ∧
    (locked_disable_mdp_irq (bare 5 (some 7)) 6).2.mdp_irq_mask = 1 ∧
    (locked_disable_mdp_irq (bare 5 (some 7)) 6).2.trace = [.mdp_writel 1 .MDP_INTR_ENABLE] ∧
    (locked_disable_mdp_irq (bare 5 (some 7)) 5).2.mdp_irq_mask = 0 ∧
    (locked_disable_mdp_irq (bare 5 (some 7)) 5).2.trace =
      [.mdp_writel 0 .MDP_INTR_ENABLE, .disable_irq_nosync, .clk_disable 7,
       .clk_set_rate 0] :=
  have h := (locked_disable_success (bare 5 (some 7)) 6 (by decide)).1
  have h5 := (locked_disable_success (bare 5 (some 7)) 5 (by decide)).1
  ⟨by rw [h], by rw [h]; decide, by rw [h]; decide, by rw [h5]; decide, by rw [h5]; decide⟩

/-! ## The power invariant -/

theorem void_state {α : Type} (r : Res α) : r.void.state = r.state := by
  cases r <;> rfl

theorem power_inv_emit (s : mdp_info) (acts : List Action)
    (h : power_events acts = []) : power_inv (emit s acts) ↔ power_inv s := by
  unfold power_inv power_events at *
  simp [emit, h]

theorem power_inv_congr (s s1 : mdp_info) (hm : s1.mdp_irq_mask = s.mdp_irq_mask)
    (ht : power_events s1.trace = power_events s.trace) (h : power_inv s) :
    power_inv s1 := by
  unfold power_inv at *
  rw [hm, ht]
  exact h

theorem lor_ne_zero (a b : Nat) (hb : b ≠ 0) : a ||| b ≠ 0 := by
  intro h
  apply hb
  apply Nat.eq_of_testBit_eq
  intro i
  have := congrArg (fun n => n.testBit i) h
  simp only [Nat.testBit_or, Nat.zero_testBit, Bool.or_eq_false_iff] at this
  simp [this.2]

theorem power_inv_enable (s : mdp_info) (mask : Nat) (h : power_inv s) :
    power_inv (locked_enable_mdp_irq s mask).state := by
  unfold locked_enable_mdp_irq
  by_cases hb : mask = 0
  · simpa [hb, Res.state] using h
  · by_cases hp : s.mdp_irq_mask &&& mask = 0
    · obtain ⟨k, hk⟩ := h
      refine ⟨k, ?_⟩
      have hne := lor_ne_zero s.mdp_irq_mask mask hb
      by_cases h0 : s.mdp_irq_mask = 0
      · simp [hb, h0, Res.state, emit, power_up, power_events, power_event] at hk ⊢
        exact hk
      · simp [hb, hp, h0, hne, Res.state, emit, power_events, power_event] at hk ⊢
        exact hk
    · simp only [hb, hp, if_false, ne_eq, not_false_eq_true, if_true, Res.state]
      exact (power_inv_emit s _ (by decide)).2 h

theorem power_inv_disable (s : mdp_info) (mask : Nat) (h : power_inv s) :
    power_inv (locked_disable_mdp_irq s mask).2 := by
  unfold locked_disable_mdp_irq
  by_cases hp : s.mdp_irq_mask &&& mask = 0
  · simp only [hp, if_true]
    exact (power_inv_emit s _ (by decide)).2 h
  · have hs : s.mdp_irq_mask ≠ 0 := by
      intro h0
      apply hp
      simp [h0]
    obtain ⟨k, hk⟩ := h
    by_cases h0 : s.mdp_irq_mask &&& not32 mask = 0
    · refine ⟨k + 1, ?_⟩
      cases hc : s.clk <;>
        simp [hp, hs, h0, hc, emit, power_down, power_events, power_event, cycles] at hk ⊢ <;>
        rw [hk] <;> simp
    · refine ⟨k, ?_⟩
      simp [hp, hs, h0, emit, power_events, power_event] at hk ⊢
      exact hk

theorem isr_iter_frame (i status : Nat) (s : mdp_info) :
    (isr_iter i status s).state.mdp_irq_mask = s.mdp_irq_mask ∧
    (isr_iter i status s).state.clk = s.clk ∧
    power_events (isr_iter i status s).state.trace = power_events s.trace := by
  unfold isr_iter
  by_cases hd : status &&& (s.out_if i).dma_mask = 0 <;>
    by_cases hi : status &&& (s.out_if i).irq_mask = 0 <;>
    cases hc : (s.out_if i).dma_cb <;>
    cases hq : (s.out_if i).irq_cb <;>
    simp [hd, hi, hc, hq, Res.state, emit, set_out_if, power_events, power_event]

theorem isr_loop_frame (status : Nat) (n : Nat) : ∀ (i : Nat) (s : mdp_info),
    (isr_loop status i n s).state.mdp_irq_mask = s.mdp_irq_mask ∧
    (isr_loop status i n s).state.clk = s.clk ∧
    power_events (isr_loop status i n s).state.trace = power_events s.trace := by
  induction n with
  | zero => intro i s; simp [isr_loop, Res.state]
  | succ n ih =>
    intro i s
    have hf := isr_iter_frame i status s
    unfold isr_loop
    cases h : isr_iter i status s with
    | ok r s1 =>
      rw [h] at hf
      have := ih (i + 1) s1
      simp only [Res.state] at hf this ⊢
      exact ⟨this.1.trans hf.1, this.2.1.trans hf.2.1, this.2.2.trans hf.2.2⟩
    | fault f s1 =>
      rw [h] at hf
      simpa [Res.state] using hf

theorem power_inv_isr (N : Nat) (s : mdp_info) (raw : Nat) (h : power_inv s) :
    power_inv (mdp_isr N s raw).state := by
  have hf := isr_loop_frame
    (raw &&& s.mdp_irq_mask) N 0
    (emit s [.mdp_readl .MDP_INTR_STATUS, .mdp_writel raw .MDP_INTR_CLEAR])
  have h1 : power_inv (isr_loop (raw &&& s.mdp_irq_mask) 0 N
      (emit s [.mdp_readl .MDP_INTR_STATUS, .mdp_writel raw .MDP_INTR_CLEAR])).state := by
    apply power_inv_congr s _ hf.1 _ h
    rw [hf.2.2]
    simp [emit, power_events, power_event]
  unfold mdp_isr
  simp only [emit] at h1 ⊢
  cases hl : isr_loop (raw &&& s.mdp_irq_mask) 0 N
      { s with trace := s.trace ++ [.mdp_readl .MDP_INTR_STATUS,
        .mdp_writel raw .MDP_INTR_CLEAR] } with
  | fault f s2 =>
    rw [hl] at h1
    simpa [Res.state] using h1
  | ok r s2 =>
    rw [hl] at h1
    simp only [Res.state] at h1 ⊢
    have h3 : power_inv (emit s2 [.mdp_ppp_handle_isr (raw &&& s.mdp_irq_mask)]) :=
      (power_inv_emit s2 _ (by simp [power_events, power_event])).2 h1
    by_cases hz : raw &&& s.mdp_irq_mask = 0
    · simpa [hz, emit] using h3
    · simp only [ne_eq, hz, not_false_eq_true, if_true]
      exact power_inv_disable _ _ h3

theorem power_inv_wait (s : mdp_info) (mask : Nat) (h : power_inv s) :
    power_inv (mdp_wait s mask).2 := by
  unfold mdp_wait
  by_cases hp : s.mdp_irq_mask &&& mask = 0
  · simpa [hp] using h
  · simp only [ne_eq, hp, not_false_eq_true, if_true]
    exact power_inv_disable _ _ ((power_inv_emit s _ (by decide)).2 h)

theorem power_inv_set_out_if (s : mdp_info) (i : Nat) (v : mdp_out_interface) :
    power_inv (set_out_if s i v) ↔ power_inv s := by
  unfold power_inv set_out_if
  simp

theorem power_inv_dma (N : Nat) (s : mdp_info) (addr stride width height x y : Nat)
    (callback : Option Nat) (interface : Int) (h : power_inv s) :
    power_inv (mdp_dma N s addr stride width height x y callback interface).state := by
  have he := power_inv_enable s (s.out_if interface.toNat).dma_mask h
  have hlog := (power_inv_emit s [.pr_err .unknown_interface] (by decide)).2 h
  unfold mdp_dma
  by_cases h1 : interface < 0 ∨ interface > (N : Int)
  · simpa [h1, Res.state] using hlog
  · by_cases h2 : N ≤ interface.toNat
    · simpa [h1, h2, Res.state] using h
    · by_cases h3 : (s.out_if interface.toNat).registered = false
      · simpa [h1, h2, h3, Res.state] using hlog
      · simp only [h1, h2, h3, if_false]
        cases hl : locked_enable_mdp_irq s (s.out_if interface.toNat).dma_mask with
        | fault f s1 =>
          rw [hl] at he
          simpa [Res.state] using he
        | ok ret s1 =>
          rw [hl] at he
          simp only [Res.state] at he ⊢
          by_cases hr : ret = 0
          · simp only [hr, ne_eq, not_true_eq_false, if_false]
            rw [if_neg (by decide : ¬ (true = false))]
            split_ifs
            · exact (power_inv_set_out_if _ _ _).2 he
            · apply (power_inv_emit _ _ (by simp [power_events, power_event])).2
              exact (power_inv_set_out_if _ _ _).2 he
          · simp only [ne_eq, hr, not_false_eq_true, if_true]
            exact (power_inv_emit _ _ (by decide)).2 he

theorem power_inv_register (N : Nat) (s : mdp_info) (interface : Int)
    (private_data dma_mask dma_start : Nat) (h : power_inv s) :
    power_inv (mdp_out_if_register N s interface private_data dma_mask dma_start).2 := by
  unfold mdp_out_if_register
  by_cases h1 : interface < 0 ∨ interface ≥ (N : Int)
  · simp only [h1, if_true]
    exact (power_inv_emit _ _ (by decide)).2 h
  · by_cases h2 : (s.out_if interface.toNat).registered = true
    · simp only [h1, h2, if_false, if_true]
      exact (power_inv_emit _ _ (by decide)).2 h
    · simp only [h1, h2, if_false]
      apply (power_inv_set_out_if _ _ _).2
      exact (power_inv_emit _ _ (by simp [power_events, power_event])).2 h

theorem power_inv_req_irq (N : Nat) (s : mdp_info) (interface : Int) (mask : Nat)
    (cb : Option Nat) (h : power_inv s) :
    power_inv (mdp_out_if_req_irq N s interface mask cb).state := by
  have he := power_inv_enable s mask h
  have hd := power_inv_disable s mask h
  unfold mdp_out_if_req_irq
  by_cases h1 : interface < 0 ∨ interface ≥ (N : Int)
  · simp only [h1, if_true, Res.state]
    exact (power_inv_emit _ _ (by decide)).2 h
  · by_cases h2 : (s.out_if interface.toNat).registered = false
    · simp only [h1, h2, if_false, if_true, Res.state]
      exact (power_inv_emit _ _ (by decide)).2 h
    · by_cases hm : mask = 0
      · simp only [h1, h2, hm, if_false, ne_eq, not_true_eq_false, Res.state]
        rw [hm] at hd
        exact (power_inv_set_out_if _ _ _).2 hd
      · simp only [h1, h2, hm, if_false, ne_eq, not_false_eq_true, if_true]
        cases hl : locked_enable_mdp_irq s mask with
        | fault f s1 =>
          rw [hl] at he
          simpa [Res.state] using he
        | ok ret s1 =>
          rw [hl] at he
          simp only [Res.state] at he ⊢
          by_cases hr : ret = 0
          · simp only [hr, not_true_eq_false, if_false, Res.state]
            exact (power_inv_set_out_if _ _ _).2 he
          · simp only [hr, not_false_eq_true, if_true, Res.state]
            exact (power_inv_emit _ _ (by decide)).2 he

theorem power_inv_step (N : Nat) (s : mdp_info) (c : Step) (h : power_inv s) :
    power_inv (step N s c).state := by
  cases c with
  | enable mask =>
    have := power_inv_enable s mask h
    simpa [step, enable_mdp_irq, void_state] using this
  | disable mask => exact power_inv_disable s mask h
  | dma addr stride width height x y callback interface =>
    exact power_inv_dma N s addr stride width height x y callback interface h
  | wait mask => exact power_inv_wait s mask h
  | req_irq interface mask cb =>
    have := power_inv_req_irq N s interface mask cb h
    simpa [step, void_state] using this
  | isr raw => exact power_inv_isr N s raw h
  | register interface private_data dma_mask dma_start =>
    exact power_inv_register N s interface private_data dma_mask dma_start h

theorem power_inv_run (N : Nat) (steps : List Step) : ∀ (s : mdp_info), power_inv s →
    power_inv (run N s steps).state := by
  induction steps with
  | nil => intro s h; simpa [run, Res.state] using h
  | cons c rest ih =>
    intro s h
    have hs := power_inv_step N s c h
    unfold run
    cases hl : step N s c with
    | ok r s1 =>
      rw [hl] at hs
      exact ih s1 hs
    | fault f s1 =>
      rw [hl] at hs
      simpa [Res.state] using hs

theorem power_ups_cycles (k : Nat) : (cycles k).count .enable_irq = k := by
  induction k with
  | zero => rfl
  | succ k ih => simp [cycles, ih]

theorem power_downs_cycles (k : Nat) : (cycles k).count .disable_irq_nosync = k := by
  induction k with
  | zero => rfl
  | succ k ih => simp [cycles, ih]

theorem power_ups_filter (t : List Action) :
    (power_events t).count .enable_irq = power_ups t := by
  unfold power_events power_ups
  induction t with
  | nil => rfl
  | cons a t ih =>
    by_cases h : power_event a = true
    · simp [List.filter_cons, h, List.count_cons, ih]
    · have hne : a ≠ .enable_irq := by
        intro e
        apply h
        rw [e]
        rfl
      simp [List.filter_cons, h, List.count_cons, ih, hne]

theorem power_downs_filter (t : List Action) :
    (power_events t).count .disable_irq_nosync = power_downs t := by
  unfold power_events power_downs
  induction t with
  | nil => rfl
  | cons a t ih =>
    by_cases h : power_event a = true
    · simp [List.filter_cons, h, List.count_cons, ih]
    · have hne : a ≠ .disable_irq_nosync := by
        intro e
        apply h
        rw [e]
        rfl
      simp [List.filter_cons, h, List.count_cons, ih, hne]

/-- C5: from any state with an empty mask and no power event in its trace, after every
finite sequence of enable, disable, `mdp_dma`, `mdp_wait`, `mdp_out_if_req_irq`,
`mdp_isr` (and `mdp_out_if_register`) calls, the power events performed so far are
complete up/down cycles followed by one more power-up exactly when the mask is
non-empty; so power-ups and power-downs alternate, and the number of power-ups is the
number of power-downs plus 1 if the mask is non-empty and plus 0 if it is empty. -/
theorem power_balance (N : Nat) (s0 : mdp_info) (h0 : s0.mdp_irq_mask = 0)
    (ht : power_events s0.trace = []) (steps : List Step) :
    (∃ k, power_events (run N s0 steps).state.trace =
      cycles k ++ (if (run N s0 steps).state.mdp_irq_mask = 0 then [] else [.enable_irq])) ∧
    power_ups (run N s0 steps).state.trace =
      power_downs (run N s0 steps).state.trace +
        (if (run N s0 steps).state.mdp_irq_mask = 0 then 0 else 1) := by
  have hinv : power_inv (run N s0 steps).state := by
    apply power_inv_run
    exact ⟨0, by simp [h0, ht, cycles]⟩
  refine ⟨hinv, ?_⟩
  obtain ⟨k, hk⟩ := hinv
  rw [← power_ups_filter, ← power_downs_filter, hk]
  by_cases hm : (run N s0 steps).state.mdp_irq_mask = 0 <;>
    simp [hm, power_ups_cycles, power_downs_cycles]

theorem power_balance_witness :
    power_ups (run 3 (bare 0 (some 1)) scenario).state.trace =
      power_downs (run 3 (bare 0 (some 1)) scenario).state.trace +
        (if (run 3 (bare 0 (some 1)) scenario).state.mdp_irq_mask = 0 then 0 else 1) ∧
    (run 3 (bare 0 (some 1)) scenario).state.mdp_irq_mask = 0 ∧
    power_ups (run 3 (bare 0 (some 1)) scenario).state.trace = 1 ∧
    power_downs (run 3 (bare 0 (some 1)) scenario).state.trace = 1 :=
  ⟨(power_balance 3 (bare 0 (some 1)) rfl rfl scenario).2, by decide, by decide, by decide⟩

/-! ## The DMA request path -/

/-- Counterexample to C7 as stated: `mdp_out_if_register` accepts a `NULL` `dma_start`
for interface 0; its DMA bit 1 is non-zero and not pending, yet `mdp_dma` does not return:
it enables the bit, stores callback 42 and then ends in the call through the `NULL`
`dma_start`, which is therefore invoked zero times. -/
theorem mdp_dma_null_start_faults :
    (null_start_registered.out_if 0).registered = true ∧
    (null_start_registered.out_if 0).dma_mask = 1 ∧
    null_start_registered.mdp_irq_mask &&& (null_start_registered.out_if 0).dma_mask = 0 ∧
    (mdp_dma 3 null_start_registered 100 4 2 2 0 0 (some 42) 0).fault_of =
      some .null_call ∧
    (mdp_dma 3 null_start_registered 100 4 2 2 0 0 (some 42) 0).state.mdp_irq_mask = 1 ∧
    ((mdp_dma 3 null_start_registered 100 4 2 2 0 0 (some 42) 0).state.out_if 0).dma_cb =
      some 42 ∧
    (mdp_dma 3 null_start_registered 100 4 2 2 0 0 (some 42) 0).state.trace.filter
      Action.is_dma_start = [] := by
  decide

/-- C7 (amended): for every registered interface `i < N` whose `dma_start` is not `NULL`
and whose non-zero DMA mask is disjoint from `mdp_irq_mask`, `mdp_dma` returns normally;
the new mask is the old mask OR the interface's `dma_mask`; slot `i` differs from before
only in `dma_cb`, which holds the supplied callback; no other slot changes; and after
the actions of the enable the interface's `dma_start` is invoked exactly once, with the
slot's private data and `addr, stride, width, height, x, y` in that order. -/
theorem mdp_dma_success (N : Nat) (s : mdp_info) (addr stride width height x y : Nat)
    (callback : Option Nat) (i : Nat) (hi : i < N)
    (hr : (s.out_if i).registered = true)
    (hs : (s.out_if i).dma_start ≠ 0)
    (hm : (s.out_if i).dma_mask ≠ 0)
    (hp : s.mdp_irq_mask &&& (s.out_if i).dma_mask = 0) :
    mdp_dma N s addr stride width height x y callback (i : Int) = .ok ()
      { s with
        mdp_irq_mask := s.mdp_irq_mask ||| (s.out_if i).dma_mask
        out_if := fun j => if j = i then { s.out_if i with dma_cb := callback }
          else s.out_if j
        trace := s.trace ++
          (if s.mdp_irq_mask = 0 then
            [.clk_set_rate 128000000, .clk_enable s.clk, .enable_irq] else []) ++
          [.mdp_writel (s.out_if i).dma_mask .MDP_INTR_CLEAR,
           .mdp_writel (s.mdp_irq_mask ||| (s.out_if i).dma_mask) .MDP_INTR_ENABLE,
           .dma_start (s.out_if i).dma_start (s.out_if i).priv
             addr stride width height x y] } ∧
    ((mdp_dma N s addr stride width height x y callback (i : Int)).state.out_if i).dma_cb =
      callback ∧
    (∀ j, j ≠ i →
      (mdp_dma N s addr stride width height x y callback (i : Int)).state.out_if j =
        s.out_if j) ∧
    ((mdp_dma N s addr stride width height x y callback (i : Int)).state.trace.drop
      s.trace.length).filter Action.is_dma_start =
        [.dma_start (s.out_if i).dma_start (s.out_if i).priv
          addr stride width height x y] := by
  have e := locked_enable_ok s (s.out_if i).dma_mask hm hp
  have e2 : mdp_dma N s addr stride width height x y callback (i : Int) = .ok ()
      { s with
        mdp_irq_mask := s.mdp_irq_mask ||| (s.out_if i).dma_mask
        out_if := fun j => if j = i then { s.out_if i with dma_cb := callback }
          else s.out_if j
        trace := s.trace ++
          (if s.mdp_irq_mask = 0 then
            [.clk_set_rate 128000000, .clk_enable s.clk, .enable_irq] else []) ++
          [.mdp_writel (s.out_if i).dma_mask .MDP_INTR_CLEAR,
           .mdp_writel (s.mdp_irq_mask ||| (s.out_if i).dma_mask) .MDP_INTR_ENABLE,
           .dma_start (s.out_if i).dma_start (s.out_if i).priv
             addr stride width height x y] } := by
    simp [mdp_dma, hi.le, Nat.not_le.mpr hi, hr, hs, e, emit, set_out_if]
  rw [e2]
  refine ⟨rfl, by simp [Res.state], ?_, ?_⟩
  · intro j hj
    simp [Res.state, hj]
  · by_cases h0 : s.mdp_irq_mask = 0 <;>
      simp [Res.state, h0, List.append_assoc, Action.is_dma_start]

theorem mdp_dma_success_witness :
    (mdp_dma 3 (one_registered 0) 100 4 2 2 0 0 (some 42) ((0 : Nat) : Int)).state.mdp_irq_mask
      = 1 ∧
    ((mdp_dma 3 (one_registered 0) 100 4 2 2 0 0 (some 42) ((0 : Nat) : Int)).state.out_if
      0).dma_cb = some 42 ∧
    (mdp_dma 3 (one_registered 0) 100 4 2 2 0 0 (some 42) ((0 : Nat) : Int)).state.trace =
      [.clk_set_rate 128000000, .clk_enable (some 1), .enable_irq,
       .mdp_writel 1 .MDP_INTR_CLEAR, .mdp_writel 1 .MDP_INTR_ENABLE,
       .dma_start 7 9 100 4 2 2 0 0] :=
  have h := (mdp_dma_success 3 (one_registered 0) 100 4 2 2 0 0 (some 42) 0 (by decide)
    (by decide) (by decide) (by decide) (by decide)).1
  ⟨by rw [h]; rfl, by rw [h]; rfl, by rw [h]; rfl⟩

/-- C8 (the code at the failing input): with `interface` equal to
`MSM_MDP_NUM_INTERFACES` the guard `interface > MSM_MDP_NUM_INTERFACES` does not fire,
so `mdp_dma` goes on to read `out_if[interface].registered` one slot past the end of
the array instead of aborting with the unknown-interface `BUG()`. -/
theorem mdp_dma_index_N_reads_past_end (N : Nat) (s : mdp_info)
    (addr stride width height x y : Nat) (callback : Option Nat) :
    mdp_dma N s addr stride width height x y callback (N : Int) =
      .fault .out_of_bounds s := by
  have h1 : ¬ ((N : Int) < 0 ∨ (N : Int) > (N : Int)) := by omega
  simp [mdp_dma, h1]

/-- For an index below 0 or above `MSM_MDP_NUM_INTERFACES`, and for an index in
`0..N-1` whose slot is not registered, `mdp_dma` stops at the unknown-interface `BUG()`
having only logged: no bit is enabled and no slot is touched. -/
theorem mdp_dma_unknown_interface (N : Nat) (s : mdp_info)
    (addr stride width height x y : Nat) (callback : Option Nat) (interface : Int)
    (h : interface < 0 ∨ interface > (N : Int) ∨
      (0 ≤ interface ∧ interface < (N : Int) ∧
        (s.out_if interface.toNat).registered = false)) :
    mdp_dma N s addr stride width height x y callback interface =
      .fault .BUG (emit s [.pr_err .unknown_interface]) := by
  rcases h with h | h | ⟨h0, h1, h2⟩
  · simp [mdp_dma, h]
  · simp [mdp_dma, h]
  · have ha : ¬ (interface < 0 ∨ interface > (N : Int)) := by omega
    have hb : ¬ (N ≤ interface.toNat) := by omega
    simp [mdp_dma, ha, hb, h2]

/-! ## The interrupt handler -/

/-- C9 (the code at the failing input): in the state reached by registering
interfaces 0 and 1, requesting interface 0's secondary interrupt bit 4 with a `NULL`
callback and submitting a transfer on interface 1, the handler run with status 6 finds
interface 1's DMA bit in the intersected status, yet it stops at the call through the
`NULL` `irq_cb` of interface 0 and interface 1's wait queue is never woken. -/
theorem isr_null_irq_cb_skips_wake :
    irq_without_callback_state.mdp_irq_mask = 6 ∧
    (irq_without_callback_state.out_if 0).irq_mask = 4 ∧
    (irq_without_callback_state.out_if 0).irq_cb = none ∧
    (6 &&& irq_without_callback_state.mdp_irq_mask) &&&
      (irq_without_callback_state.out_if 1).dma_mask ≠ 0 ∧
    (mdp_isr 3 irq_without_callback_state 6).fault_of = some .null_call ∧
    Action.wake_up 1 ∉ (mdp_isr 3 irq_without_callback_state 6).state.trace := by
  decide

/-- C10 (the code at the failing input): in the same state, reached by a successful
`mdp_dma` on interface 1 with callback 42, dispatching status 6 (which contains
interface 1's DMA bit) twice stops in the first dispatch at the `NULL` `irq_cb` of
interface 0: callback 42 is invoked zero times and is still stored in the slot. -/
theorem isr_twice_null_irq_cb_never_calls :
    (irq_without_callback_state.out_if 1).registered = true ∧
    (irq_without_callback_state.out_if 1).dma_cb = some 42 ∧
    6 &&& (irq_without_callback_state.out_if 1).dma_mask ≠ 0 ∧
    (run 3 irq_without_callback_state [.isr 6, .isr 6]).fault_of = some .null_call ∧
    (run 3 irq_without_callback_state [.isr 6, .isr 6]).state.trace.count
      (.dma_cb_func 1 42) = 0 ∧
    ((run 3 irq_without_callback_state [.isr 6, .isr 6]).state.out_if 1).dma_cb =
      some 42 := by
  decide

theorem isr_iter_ok (i status : Nat) (s : mdp_info)
    (h : status &&& (s.out_if i).irq_mask ≠ 0 → (s.out_if i).irq_cb ≠ none) :
    isr_iter i status s = .ok ()
      { s with
        out_if := fun j => if j = i then serviced status (s.out_if i) else s.out_if j
        trace := s.trace ++ iter_actions i status (s.out_if i) } := by
  rcases s with ⟨m, c, oif, tr⟩
  simp only at h
  unfold isr_iter
  simp only [emit, set_out_if]
  cases ho : oif i with
  | mk reg priv dm im ds dcb icb =>
    rw [ho] at h
    simp only at h
    have hfun : ∀ (v : mdp_out_interface), v = oif i →
        (fun j => if j = i then v else oif j) = oif := by
      intro v hv
      funext j
      by_cases hj : j = i
      · simp [hj, hv]
      · simp [hj]
    by_cases hd : status &&& dm = 0 <;>
      by_cases hi : status &&& im = 0 <;>
      cases dcb <;>
      cases icb <;>
      simp [hd, hi, iter_actions, serviced, ho] at h ⊢
    all_goals first | done | exact (hfun _ ho.symm).symm | skip
    funext j
    by_cases hj : j = i <;> simp [hj]

theorem loop_actions_congr (status : Nat) (f g : Nat → mdp_out_interface) (n : Nat) :
    ∀ i, (∀ j, i ≤ j → f j = g j) → loop_actions status f i n = loop_actions status g i n := by
  induction n with
  | zero => intro i _; rfl
  | succ n ih =>
    intro i h
    simp only [loop_actions]
    rw [h i (Nat.le_refl i), ih (i + 1) (fun j hj => h j (by omega))]

theorem isr_loop_ok (status : Nat) (n : Nat) : ∀ (i : Nat) (s : mdp_info),
    (∀ j, i ≤ j → j < i + n →
      status &&& (s.out_if j).irq_mask ≠ 0 → (s.out_if j).irq_cb ≠ none) →
    isr_loop status i n s = .ok ()
      { s with
        out_if := fun j =>
          if i ≤ j ∧ j < i + n then serviced status (s.out_if j) else s.out_if j
        trace := s.trace ++ loop_actions status s.out_if i n } := by
  induction n with
  | zero =>
    intro i s _
    rcases s with ⟨m, c, oif, tr⟩
    simp [isr_loop, loop_actions]
    funext j
    have h1 : ¬ (i ≤ j ∧ j < i) := by omega
    simp [h1]
  | succ n ih =>
    intro i s h
    unfold isr_loop
    rw [isr_iter_ok i status s (h i (Nat.le_refl i) (by omega))]
    simp only
    rw [ih (i + 1)]
    · simp only [loop_actions, List.append_assoc]
      congr 2
      · funext j
        by_cases h1 : j = i
        · subst h1
          simp
        · by_cases h2 : i + 1 ≤ j ∧ j < i + 1 + n
          · have h3 : i ≤ j ∧ j < i + (n + 1) := by omega
            simp [h1, h2, h3]
          · have h3 : ¬ (i ≤ j ∧ j < i + (n + 1)) := by omega
            simp [h1, h2, h3]
      · congr 2
        apply loop_actions_congr
        intro j hj
        have h1 : j ≠ i := by omega
        simp [h1]
    · intro j hj1 hj2
      have h1 : j ≠ i := by omega
      simp only [h1, if_false]
      exact h j (by omega) (by omega)

theorem land_land_self (raw m : Nat) : m &&& (raw &&& m) = raw &&& m := by
  apply Nat.eq_of_testBit_eq
  intro i
  simp only [Nat.testBit_and]
  cases raw.testBit i <;> cases m.testBit i <;> rfl

theorem land_after_release (raw m : Nat) : raw &&& (m &&& not32 (raw &&& m)) = 0 := by
  apply Nat.eq_of_testBit_eq
  intro i
  simp only [Nat.testBit_and, testBit_not32, Nat.zero_testBit]
  by_cases hi : i < 32 <;> cases raw.testBit i <;> cases m.testBit i <;> simp [hi]

/-- The interrupt handler when no `NULL` `irq_cb` is hit: it returns, every slot below
`N` has been serviced for the intersected status, and the trace grows by the status
read and acknowledge, the loop's callbacks and wake-ups, the forward to
`mdp_ppp_handle_isr` and, for a non-zero intersected status, the actions of the
disable. -/
theorem mdp_isr_ok (N : Nat) (s : mdp_info) (raw : Nat)
    (h : irq_cbs_present N s (raw &&& s.mdp_irq_mask)) :
    mdp_isr N s raw = .ok ()
      { s with
        mdp_irq_mask :=
          if raw &&& s.mdp_irq_mask = 0 then s.mdp_irq_mask
          else s.mdp_irq_mask &&& not32 (raw &&& s.mdp_irq_mask)
        out_if := fun j =>
          if j < N then serviced (raw &&& s.mdp_irq_mask) (s.out_if j) else s.out_if j
        trace := s.trace ++
          [.mdp_readl .MDP_INTR_STATUS, .mdp_writel raw .MDP_INTR_CLEAR] ++
          loop_actions (raw &&& s.mdp_irq_mask) s.out_if 0 N ++
          [.mdp_ppp_handle_isr (raw &&& s.mdp_irq_mask)] ++
          (if raw &&& s.mdp_irq_mask = 0 then []
           else
            [.mdp_writel (s.mdp_irq_mask &&& not32 (raw &&& s.mdp_irq_mask))
              .MDP_INTR_ENABLE] ++
            (if s.mdp_irq_mask &&& not32 (raw &&& s.mdp_irq_mask) = 0 then power_down s
             else [])) } := by
  unfold mdp_isr
  simp only [emit]
  rw [isr_loop_ok]
  · simp only
    by_cases hz : raw &&& s.mdp_irq_mask = 0
    · simp [hz, emit]
    · have hp : s.mdp_irq_mask &&& (raw &&& s.mdp_irq_mask) ≠ 0 := by
        rw [land_land_self]
        exact hz
      simp only [ne_eq, hz, not_false_eq_true, if_true, if_false]
      by_cases h0 : s.mdp_irq_mask &&& not32 (raw &&& s.mdp_irq_mask) = 0 <;>
        simp [locked_disable_mdp_irq, hp, h0, emit, power_down, List.append_assoc]
  · intro j _ hj
    simpa using h j (by omega)

theorem count_wake_iter (i j status : Nat) (o : mdp_out_interface) :
    (iter_actions j status o).count (.wake_up i) =
      if j = i ∧ status &&& o.dma_mask ≠ 0 then 1 else 0 := by
  unfold iter_actions
  by_cases hd : status &&& o.dma_mask = 0 <;>
    by_cases hi : status &&& o.irq_mask = 0 <;>
    cases o.dma_cb <;> cases o.irq_cb <;>
    by_cases hj : j = i <;>
    simp [hd, hi, hj, List.count_cons]

theorem count_dma_cb_iter (i j status cb : Nat) (o : mdp_out_interface) :
    (iter_actions j status o).count (.dma_cb_func i cb) =
      if j = i ∧ status &&& o.dma_mask ≠ 0 ∧ o.dma_cb = some cb then 1 else 0 := by
  unfold iter_actions
  by_cases hd : status &&& o.dma_mask = 0 <;>
    by_cases hi : status &&& o.irq_mask = 0 <;>
    cases hc : o.dma_cb <;> cases o.irq_cb <;>
    by_cases hj : j = i <;>
    simp [hd, hi, hj, List.count_cons]

theorem count_loop_of_iter (x : Action) (status : Nat) (f : Nat → mdp_out_interface)
    (i : Nat) (P : mdp_out_interface → Prop) [DecidablePred P]
    (hiter : ∀ j o, (iter_actions j status o).count x = if j = i ∧ P o then 1 else 0)
    (n : Nat) :
    ∀ a, (loop_actions status f a n).count x =
      if a ≤ i ∧ i < a + n ∧ P (f i) then 1 else 0 := by
  induction n with
  | zero =>
    intro a
    have h1 : ¬ (a ≤ i ∧ i < a + 0 ∧ P (f i)) := by omega
    simp only [loop_actions, List.count_nil, h1, if_false]
  | succ n ih =>
    intro a
    simp only [loop_actions, List.count_append, hiter, ih]
    by_cases h1 : a = i
    · subst h1
      have h2 : ¬ (a + 1 ≤ a ∧ a < a + 1 + n ∧ P (f a)) := by omega
      by_cases hP : P (f a) <;> simp [hP]
    · by_cases hP : P (f i)
      · by_cases h2 : a + 1 ≤ i ∧ i < a + 1 + n
        · have h3 : a ≤ i ∧ i < a + (n + 1) := by omega
          simp [h1, h2, h3, hP]
        · have h3 : ¬ (a ≤ i ∧ i < a + (n + 1)) := by omega
          have h4 : ¬ (a ≤ i ∧ i < a + (n + 1) ∧ P (f i)) := fun hh => h3 ⟨hh.1, hh.2.1⟩
          have h5 : ¬ (a + 1 ≤ i ∧ i < a + 1 + n ∧ P (f i)) := fun hh => h2 ⟨hh.1, hh.2.1⟩
          simp only [h1, false_and, if_false, h4, h5]
      · have h4 : ¬ (a ≤ i ∧ i < a + (n + 1) ∧ P (f i)) := fun hh => hP hh.2.2
        have h5 : ¬ (a + 1 ≤ i ∧ i < a + 1 + n ∧ P (f i)) := fun hh => hP hh.2.2
        simp only [h1, false_and, if_false, h4, h5]

theorem count_wake_loop (status : Nat) (f : Nat → mdp_out_interface) (i n a : Nat) :
    (loop_actions status f a n).count (.wake_up i) =
      if a ≤ i ∧ i < a + n ∧ status &&& (f i).dma_mask ≠ 0 then 1 else 0 :=
  count_loop_of_iter (.wake_up i) status f i (fun o => status &&& o.dma_mask ≠ 0)
    (fun j o => count_wake_iter i j status o) n a

theorem count_dma_cb_loop (status : Nat) (f : Nat → mdp_out_interface) (i cb n a : Nat) :
    (loop_actions status f a n).count (.dma_cb_func i cb) =
      if a ≤ i ∧ i < a + n ∧ (status &&& (f i).dma_mask ≠ 0 ∧ (f i).dma_cb = some cb)
      then 1 else 0 :=
  count_loop_of_iter (.dma_cb_func i cb) status f i
    (fun o => status &&& o.dma_mask ≠ 0 ∧ o.dma_cb = some cb)
    (fun j o => count_dma_cb_iter i j status cb o) n a

/-- The interrupt handler, whenever it does not hit a `NULL` `irq_cb`: it returns; it
wakes interface `i` exactly once if `i < N` and `i`'s `dma_mask` intersects the status
ANDed with `mdp_irq_mask`, with or without a stored `dma_cb`, and not at all otherwise;
and it invokes a `dma_cb` exactly once for such an interface holding one, and never
otherwise. -/
theorem mdp_isr_wakes_iff (N : Nat) (s : mdp_info) (raw : Nat)
    (h : irq_cbs_present N s (raw &&& s.mdp_irq_mask)) :
    (mdp_isr N s raw).fault_of = none ∧
    (∀ i, (new_actions s (mdp_isr N s raw).state).count (.wake_up i) =
      if i < N ∧ (raw &&& s.mdp_irq_mask) &&& (s.out_if i).dma_mask ≠ 0 then 1 else 0) ∧
    (∀ i cb, (new_actions s (mdp_isr N s raw).state).count (.dma_cb_func i cb) =
      if i < N ∧ (raw &&& s.mdp_irq_mask) &&& (s.out_if i).dma_mask ≠ 0 ∧
        (s.out_if i).dma_cb = some cb then 1 else 0) := by
  rw [mdp_isr_ok N s raw h]
  refine ⟨rfl, ?_, ?_⟩
  · intro i
    simp only [new_actions, Res.state, List.append_assoc, List.drop_left,
      List.count_append, count_wake_loop]
    cases hc : s.clk <;>
      by_cases hz : raw &&& s.mdp_irq_mask = 0 <;>
      by_cases h0 : s.mdp_irq_mask &&& not32 (raw &&& s.mdp_irq_mask) = 0 <;>
      simp [hz, h0, hc, power_down, List.count_cons]
  · intro i cb
    simp only [new_actions, Res.state, List.append_assoc, List.drop_left,
      List.count_append, count_dma_cb_loop]
    cases hc : s.clk <;>
      by_cases hz : raw &&& s.mdp_irq_mask = 0 <;>
      by_cases h0 : s.mdp_irq_mask &&& not32 (raw &&& s.mdp_irq_mask) = 0 <;>
      simp [hz, h0, hc, power_down, List.count_cons]

theorem loop_actions_zero (f : Nat → mdp_out_interface) (n : Nat) :
    ∀ a, loop_actions 0 f a n = [] := by
  induction n with
  | zero => intro a; rfl
  | succ n ih =>
    intro a
    simp [loop_actions, iter_actions, ih]

/-- Dispatching a status with no bit in `mdp_irq_mask`: the handler reads and
acknowledges the status, forwards the empty intersection to `mdp_ppp_handle_isr` and
does nothing else, so no callback is invoked, nobody is woken, and the mask, the slots
and the power state are unchanged. -/
theorem mdp_isr_unrelated_status (N : Nat) (s : mdp_info) (raw : Nat)
    (h : raw &&& s.mdp_irq_mask = 0) :
    mdp_isr N s raw = .ok ()
      (emit s [.mdp_readl .MDP_INTR_STATUS, .mdp_writel raw .MDP_INTR_CLEAR,
        .mdp_ppp_handle_isr 0]) := by
  have hp : irq_cbs_present N s (raw &&& s.mdp_irq_mask) := by
    intro j _ hj
    rw [h] at hj
    simp at hj
  rw [mdp_isr_ok N s raw hp, h]
  rcases s with ⟨m, c, oif, tr⟩
  simp only [loop_actions_zero, emit, if_true, List.append_nil, List.append_assoc,
    List.cons_append, List.nil_append, Res.ok.injEq, true_and, mdp_info.mk.injEq,
    and_true]
  funext j
  cases ho : oif j
  by_cases hj : j < N <;> simp [hj, serviced, ho]

/-- Dispatching the same status twice, whenever the first dispatch does not hit a
`NULL` `irq_cb`: the first dispatch returns in a state whose mask has no bit of the
status left, and the second dispatch only reads and acknowledges the status and
forwards an empty intersection. -/
theorem mdp_isr_twice (N : Nat) (s : mdp_info) (raw : Nat)
    (h : irq_cbs_present N s (raw &&& s.mdp_irq_mask)) :
    mdp_isr N s raw = .ok () (mdp_isr N s raw).state ∧
    raw &&& (mdp_isr N s raw).state.mdp_irq_mask = 0 ∧
    mdp_isr N (mdp_isr N s raw).state raw = .ok ()
      (emit (mdp_isr N s raw).state
        [.mdp_readl .MDP_INTR_STATUS, .mdp_writel raw .MDP_INTR_CLEAR,
          .mdp_ppp_handle_isr 0]) := by
  have hm : raw &&& (mdp_isr N s raw).state.mdp_irq_mask = 0 := by
    rw [mdp_isr_ok N s raw h]
    simp only [Res.state]
    by_cases hz : raw &&& s.mdp_irq_mask = 0
    · simp [hz]
    · simp only [hz, if_false]
      exact land_after_release raw s.mdp_irq_mask
  refine ⟨?_, hm, mdp_isr_unrelated_status N _ raw hm⟩
  rw [mdp_isr_ok N s raw h]
  rfl

theorem release_eq (raw m : Nat) (hm : m < 2 ^ 32) :
    (if raw &&& m = 0 then m else m &&& not32 (raw &&& m)) = m &&& not32 raw := by
  have hbit : ∀ i, 32 ≤ i → m.testBit i = false := by
    intro i hi
    apply Nat.testBit_eq_false_of_lt
    exact Nat.lt_of_lt_of_le hm (Nat.pow_le_pow_right (by norm_num) hi)
  apply Nat.eq_of_testBit_eq
  intro i
  by_cases hz : raw &&& m = 0
  · have hzi : (raw.testBit i && m.testBit i) = false := by
      have := congrArg (fun n => n.testBit i) hz
      simpa [Nat.testBit_and] using this
    simp only [hz, if_true, Nat.testBit_and, testBit_not32]
    by_cases hi : i < 32
    · cases hr : raw.testBit i <;> cases hmi : m.testBit i <;> simp_all
    · simp [hbit i (by omega)]
  · simp only [hz, if_false, Nat.testBit_and, testBit_not32]
    by_cases hi : i < 32 <;> cases raw.testBit i <;> cases m.testBit i <;> simp [hi]

theorem testBit_land_not32 (raw m i : Nat) (hm : m < 2 ^ 32) :
    (m &&& not32 raw).testBit i = (m.testBit i && !raw.testBit i) := by
  have hbit : 32 ≤ i → m.testBit i = false := by
    intro hi
    apply Nat.testBit_eq_false_of_lt
    exact Nat.lt_of_lt_of_le hm (Nat.pow_le_pow_right (by norm_num) hi)
  rw [Nat.testBit_and, testBit_not32]
  by_cases hi : i < 32
  · simp [hi]
  · simp [hbit (by omega)]

theorem count_ppp_loop (status v : Nat) (f : Nat → mdp_out_interface) (n a : Nat) :
    (loop_actions status f a n).count (.mdp_ppp_handle_isr v) = 0 := by
  have h := count_loop_of_iter (.mdp_ppp_handle_isr v) status f 0 (fun _ => False)
    (fun j o => by
      unfold iter_actions
      by_cases hd : status &&& o.dma_mask = 0 <;>
        by_cases hi : status &&& o.irq_mask = 0 <;>
        cases o.dma_cb <;> cases o.irq_cb <;>
        simp [hd, hi, List.count_cons]) n a
  simpa using h

theorem isr_iter_fault (i status : Nat) (s : mdp_info)
    (h1 : status &&& (s.out_if i).irq_mask ≠ 0) (h2 : (s.out_if i).irq_cb = none) :
    (isr_iter i status s).fault_of = some .null_call := by
  unfold isr_iter
  by_cases hd : status &&& (s.out_if i).dma_mask = 0 <;>
    cases hc : (s.out_if i).dma_cb <;>
    simp [hd, hc, h1, h2, emit, set_out_if, Res.fault_of]

theorem isr_loop_returns (status : Nat) (n : Nat) : ∀ (i : Nat) (s : mdp_info),
    (isr_loop status i n s).fault_of = none →
    ∀ j, i ≤ j → j < i + n →
      status &&& (s.out_if j).irq_mask ≠ 0 → (s.out_if j).irq_cb ≠ none := by
  induction n with
  | zero => intro i s _ j h1 h2; omega
  | succ n ih =>
    intro i s hret
    have hi : status &&& (s.out_if i).irq_mask ≠ 0 → (s.out_if i).irq_cb ≠ none := by
      intro h1 h2
      have hf := isr_iter_fault i status s h1 h2
      unfold isr_loop at hret
      cases hl : isr_iter i status s with
      | ok r s1 => rw [hl] at hf; simp [Res.fault_of] at hf
      | fault f s1 => rw [hl] at hret; simp [Res.fault_of] at hret
    have hok := isr_iter_ok i status s hi
    unfold isr_loop at hret
    rw [hok] at hret
    simp only at hret
    have := ih (i + 1) _ hret
    intro j hj1 hj2
    by_cases hji : j = i
    · subst hji
      exact hi
    · have h3 := this j (by omega) (by omega)
      simpa [hji] using h3

/-- The interrupt handler returns exactly when it meets no `NULL` `irq_cb`. -/
theorem mdp_isr_returns_iff (N : Nat) (s : mdp_info) (raw : Nat) :
    (mdp_isr N s raw).fault_of = none ↔ irq_cbs_present N s (raw &&& s.mdp_irq_mask) := by
  constructor
  · intro hret j hj
    have hl : (isr_loop (raw &&& s.mdp_irq_mask) 0 N
        (emit s [.mdp_readl .MDP_INTR_STATUS, .mdp_writel raw .MDP_INTR_CLEAR])).fault_of
          = none := by
      unfold mdp_isr at hret
      simp only [emit] at hret ⊢
      cases hc : isr_loop (raw &&& s.mdp_irq_mask) 0 N
          { s with trace := s.trace ++ [.mdp_readl .MDP_INTR_STATUS,
            .mdp_writel raw .MDP_INTR_CLEAR] } with
      | ok r s2 => rfl
      | fault f s2 =>
        rw [hc] at hret
        simp [Res.fault_of] at hret
    have := isr_loop_returns _ N 0 _ hl j (by omega) (by omega)
    simpa [emit] using this
  · intro h
    rw [mdp_isr_ok N s raw h]
    rfl

/-- C11: for every state whose mask `m` is a 32-bit value and every raw status `raw`,
whenever the handler returns (which it does exactly when it meets no `NULL` `irq_cb`),
the new mask is `m` AND NOT `raw`, bit by bit; the value forwarded to
`mdp_ppp_handle_isr` is exactly `raw & m`, once; and after the forward the release goes
through `locked_disable_mdp_irq`: when `raw & m` is non-zero `MDP_INTR_ENABLE` is
rewritten with the new mask, followed by the power-down actions exactly when the new
mask is `0`, and when `raw & m` is zero there is neither a write nor a power-down. -/
theorem mdp_isr_releases (N : Nat) (s : mdp_info) (raw : Nat)
    (hm : s.mdp_irq_mask < 2 ^ 32)
    (h : irq_cbs_present N s (raw &&& s.mdp_irq_mask)) :
    (mdp_isr N s raw).fault_of = none ∧
    (mdp_isr N s raw).state.mdp_irq_mask = s.mdp_irq_mask &&& not32 raw ∧
    (∀ i, (mdp_isr N s raw).state.mdp_irq_mask.testBit i =
      (s.mdp_irq_mask.testBit i && !raw.testBit i)) ∧
    new_actions s (mdp_isr N s raw).state =
      [.mdp_readl .MDP_INTR_STATUS, .mdp_writel raw .MDP_INTR_CLEAR] ++
      loop_actions (raw &&& s.mdp_irq_mask) s.out_if 0 N ++
      [.mdp_ppp_handle_isr (raw &&& s.mdp_irq_mask)] ++
      (if raw &&& s.mdp_irq_mask = 0 then []
       else
        [.mdp_writel (s.mdp_irq_mask &&& not32 raw) .MDP_INTR_ENABLE] ++
        (if s.mdp_irq_mask &&& not32 raw = 0 then power_down s else [])) ∧
    (∀ v, (new_actions s (mdp_isr N s raw).state).count (.mdp_ppp_handle_isr v) =
      if v = raw &&& s.mdp_irq_mask then 1 else 0) := by
  have hrel := release_eq raw s.mdp_irq_mask hm
  have hmask : (mdp_isr N s raw).state.mdp_irq_mask = s.mdp_irq_mask &&& not32 raw := by
    rw [mdp_isr_ok N s raw h]
    exact hrel
  have hnew : new_actions s (mdp_isr N s raw).state =
      [.mdp_readl .MDP_INTR_STATUS, .mdp_writel raw .MDP_INTR_CLEAR] ++
      loop_actions (raw &&& s.mdp_irq_mask) s.out_if 0 N ++
      [.mdp_ppp_handle_isr (raw &&& s.mdp_irq_mask)] ++
      (if raw &&& s.mdp_irq_mask = 0 then []
       else
        [.mdp_writel (s.mdp_irq_mask &&& not32 raw) .MDP_INTR_ENABLE] ++
        (if s.mdp_irq_mask &&& not32 raw = 0 then power_down s else [])) := by
    rw [mdp_isr_ok N s raw h]
    by_cases hz : raw &&& s.mdp_irq_mask = 0
    · simp [new_actions, Res.state, hz, List.append_assoc]
    · simp only [hz, if_false] at hrel
      simp [new_actions, Res.state, hz, hrel, List.append_assoc]
  refine ⟨(mdp_isr_returns_iff N s raw).2 h, hmask, ?_, hnew, ?_⟩
  · intro i
    rw [hmask]
    exact testBit_land_not32 raw s.mdp_irq_mask i hm
  · intro v
    rw [hnew]
    generalize raw &&& s.mdp_irq_mask = st
    generalize s.mdp_irq_mask &&& not32 raw = nm
    have e3 : [Action.mdp_ppp_handle_isr st].count (.mdp_ppp_handle_isr v) =
        if v = st then 1 else 0 := by
      by_cases hv : v = st
      · simp [hv]
      · have hv2 : ¬ st = v := fun e => hv e.symm
        simp [List.count_cons, hv, hv2]
    have e4 : (if st = 0 then []
        else [Action.mdp_writel nm .MDP_INTR_ENABLE] ++
          (if nm = 0 then power_down s else [])).count (.mdp_ppp_handle_isr v) = 0 := by
      cases hc : s.clk <;> by_cases hz : st = 0 <;> by_cases h0 : nm = 0 <;>
        simp [hz, h0, hc, power_down, List.count_cons]
    simp only [List.count_append, count_ppp_loop, e3, e4]
    simp [List.count_cons]

theorem mdp_isr_releases_witness :
    (mdp_isr 3 transfer_pending 1).fault_of = none ∧
    (mdp_isr 3 transfer_pending 1).state.mdp_irq_mask = 0 ∧
    new_actions transfer_pending (mdp_isr 3 transfer_pending 1).state =
      [.mdp_readl .MDP_INTR_STATUS, .mdp_writel 1 .MDP_INTR_CLEAR, .dma_cb_func 0 42,
       .wake_up 0, .mdp_ppp_handle_isr 1, .mdp_writel 0 .MDP_INTR_ENABLE,
       .disable_irq_nosync, .clk_disable 1, .clk_set_rate 0] :=
  have h := mdp_isr_releases 3 transfer_pending 1 (by decide)
    (by unfold irq_cbs_present; decide)
  ⟨h.1, h.2.1.trans (by decide), h.2.2.2.1.trans (by decide)⟩

/-! ## The wait path -/

theorem mdp_wait_recheck_aux (s : mdp_info) (mask : Nat) :
    ((mdp_wait s mask).1 = -ETIMEDOUT ↔ s.mdp_irq_mask &&& mask ≠ 0) ∧
    (mdp_wait s mask).2.mdp_irq_mask &&& mask = 0 := by
  by_cases hp : s.mdp_irq_mask &&& mask = 0
  · simp [mdp_wait, hp, ETIMEDOUT]
  · have h2 : (s.mdp_irq_mask &&& not32 mask) &&& mask = 0 := land_not32_land _ _
    by_cases h0 : s.mdp_irq_mask &&& not32 mask = 0 <;>
      simp [mdp_wait, locked_disable_mdp_irq, hp, h0, h2, emit, ETIMEDOUT]

/-- C12: for every state at the re-check of `mdp_wait` and every waited `mask`, the
call returns `-ETIMEDOUT` if and only if some bit of `mask` is still set in
`mdp_irq_mask`, and returns `0` otherwise. On the timeout path it logs, reads the clock
registers and disables `mask`: the new mask is the old one AND NOT `mask`,
`MDP_INTR_ENABLE` is rewritten and the power-down actions follow exactly when the new
mask is `0`. Otherwise the state is returned unchanged. Either way no bit of `mask` is
pending in the returned state. -/
theorem mdp_wait_recheck (s : mdp_info) (mask : Nat) :
    ((mdp_wait s mask).1 = -ETIMEDOUT ↔ s.mdp_irq_mask &&& mask ≠ 0) ∧
    ((mdp_wait s mask).1 = 0 ↔ s.mdp_irq_mask &&& mask = 0) ∧
    (s.mdp_irq_mask &&& mask ≠ 0 →
      (mdp_wait s mask).2 =
        { s with
          mdp_irq_mask := s.mdp_irq_mask &&& not32 mask
          trace := s.trace ++
            [.pr_err .timeout_waiting, .clk_ctl_readl 0x0000, .clk_ctl_readl 0x0004,
             .clk_ctl_readl 0x001C, .clk_ctl_readl 0x0220, .clk_ctl_readl 0x0224,
             .clk_ctl_readl 0x023C] ++
            [.mdp_writel (s.mdp_irq_mask &&& not32 mask) .MDP_INTR_ENABLE] ++
            (if s.mdp_irq_mask &&& not32 mask = 0 then power_down s else []) }) ∧
    (s.mdp_irq_mask &&& mask = 0 → (mdp_wait s mask).2 = s) ∧
    (mdp_wait s mask).2.mdp_irq_mask &&& mask = 0 := by
  by_cases hp : s.mdp_irq_mask &&& mask = 0
  · simp [mdp_wait, hp, ETIMEDOUT]
  · have h2 : (s.mdp_irq_mask &&& not32 mask) &&& mask = 0 := land_not32_land _ _
    by_cases h0 : s.mdp_irq_mask &&& not32 mask = 0 <;>
      simp [mdp_wait, locked_disable_mdp_irq, hp, h0, h2, emit, power_down, ETIMEDOUT]

theorem mdp_wait_recheck_witness :
    (mdp_wait transfer_pending 1).1 = -ETIMEDOUT ∧
    (mdp_wait transfer_pending 1).2.mdp_irq_mask = 0 ∧
    (mdp_wait (mdp_wait transfer_pending 1).2 1).1 = 0 ∧
    (mdp_wait (mdp_wait transfer_pending 1).2 1).2 = (mdp_wait transfer_pending 1).2 :=
  have h := mdp_wait_recheck transfer_pending 1
  have h2 := mdp_wait_recheck (mdp_wait transfer_pending 1).2 1
  ⟨h.1.2 (by decide), by decide, h2.2.1.2 h.2.2.2.2, h2.2.2.2.1 h.2.2.2.2⟩

/-- One call of `mdp_dma_wait` in which the wait times out: the counter goes up by one,
and the call ends in `BUG()` exactly when the new value exceeds 20. -/
theorem mdp_dma_wait_timeout (N : Nat) (ids : msm_interfaces) (count : Int) (s : mdp_info)
    (interface : Int)
    (hk : interface = ids.MSM_MDDI_PMDH_INTERFACE ∨
      interface = ids.MSM_MDDI_EMDH_INTERFACE ∨ interface = ids.MSM_LCDC_INTERFACE)
    (h0 : 0 ≤ interface) (hN : interface.toNat < N)
    (hr : (s.out_if interface.toNat).registered = true)
    (hp : s.mdp_irq_mask &&& (s.out_if interface.toNat).dma_mask ≠ 0) :
    mdp_dma_wait N ids count s interface =
      if count + 1 > 20 then
        .fault .BUG (emit (mdp_wait s (s.out_if interface.toNat).dma_mask).2
          [.pr_err .dma_failed])
      else .ok (count + 1) (mdp_wait s (s.out_if interface.toNat).dma_mask).2 := by
  have h1 : ¬ (interface < 0 ∨ N ≤ interface.toNat) := by omega
  have h2 : (mdp_wait s (s.out_if interface.toNat).dma_mask).1 = -ETIMEDOUT :=
    (mdp_wait_recheck_aux s _).1.2 hp
  unfold mdp_dma_wait
  simp only [hk, if_true, h1, if_false, hr, h2, MDP_MAX_TIMEOUTS]
  simp

/-- One call of `mdp_dma_wait` in which the wait succeeds: the counter is reset to 0
and the call returns with the state unchanged. -/
theorem mdp_dma_wait_success (N : Nat) (ids : msm_interfaces) (count : Int) (s : mdp_info)
    (interface : Int)
    (hk : interface = ids.MSM_MDDI_PMDH_INTERFACE ∨
      interface = ids.MSM_MDDI_EMDH_INTERFACE ∨ interface = ids.MSM_LCDC_INTERFACE)
    (h0 : 0 ≤ interface) (hN : interface.toNat < N)
    (hr : (s.out_if interface.toNat).registered = true)
    (hp : s.mdp_irq_mask &&& (s.out_if interface.toNat).dma_mask = 0) :
    mdp_dma_wait N ids count s interface = .ok 0 s := by
  have h1 : ¬ (interface < 0 ∨ N ≤ interface.toNat) := by omega
  unfold mdp_dma_wait
  simp [hk, h1, hr, mdp_wait, hp, ETIMEDOUT, MDP_MAX_TIMEOUTS]

theorem dma_wait_calls_timeouts (N : Nat) (ids : msm_interfaces) (interface : Int)
    (hk : interface = ids.MSM_MDDI_PMDH_INTERFACE ∨
      interface = ids.MSM_MDDI_EMDH_INTERFACE ∨ interface = ids.MSM_LCDC_INTERFACE)
    (h0 : 0 ≤ interface) (hN : interface.toNat < N) (states : List mdp_info) :
    ∀ (k : Nat) (count : Int), 0 ≤ count → count ≤ 20 →
    (∀ s ∈ states, (s.out_if interface.toNat).registered = true ∧
      s.mdp_irq_mask &&& (s.out_if interface.toNat).dma_mask ≠ 0) →
    dma_wait_calls N ids interface k count states =
      if count + states.length ≤ 20 then .inr (count + states.length)
      else .inl (k + (21 - count).toNat) := by
  induction states with
  | nil =>
    intro k count _ h20 _
    simp [dma_wait_calls, h20]
  | cons s rest ih =>
    intro k count hc h20 hall
    have hs := hall s (List.mem_cons_self s rest)
    have hrest : ∀ s1 ∈ rest, (s1.out_if interface.toNat).registered = true ∧
        s1.mdp_irq_mask &&& (s1.out_if interface.toNat).dma_mask ≠ 0 :=
      fun s1 h1 => hall s1 (List.mem_cons_of_mem s h1)
    unfold dma_wait_calls
    rw [mdp_dma_wait_timeout N ids count s interface hk h0 hN hs.1 hs.2]
    by_cases hlast : count + 1 > 20
    · have h1 : ¬ (count + ((rest.length : Int) + 1) ≤ 20) := by omega
      have h2 : (21 - count).toNat = 1 := by omega
      simp [hlast, h1, h2]
    · simp only [hlast, if_false]
      rw [ih (k + 1) (count + 1) (by omega) (by omega) hrest]
      by_cases hle : count + 1 + (rest.length : Int) ≤ 20
      · have h1 : count + ((rest.length : Int) + 1) ≤ 20 := by omega
        simp only [hle, if_true, List.length_cons, Nat.cast_add, Nat.cast_one, h1]
        congr 1
        omega
      · have h1 : ¬ (count + ((rest.length : Int) + 1) ≤ 20) := by omega
        simp only [hle, if_false, List.length_cons, Nat.cast_add, Nat.cast_one, h1]
        congr 1
        omega

/-- C13: starting from a zero `timeout_count`, let `mdp_dma_wait` be called for the
same interface (one of the three known ones, registered, in range) in successive states
in each of which the wait times out. If there are at most 20 such calls, all of them
return and the counter equals their number; if there are more, the first 20 return and
the 21st call is the one that ends in `BUG()`. A call in which the wait succeeds returns
with the counter reset to 0, whatever the counter was. -/
theorem dma_wait_escalation (N : Nat) (ids : msm_interfaces) (interface : Int)
    (hk : interface = ids.MSM_MDDI_PMDH_INTERFACE ∨
      interface = ids.MSM_MDDI_EMDH_INTERFACE ∨ interface = ids.MSM_LCDC_INTERFACE)
    (h0 : 0 ≤ interface) (hN : interface.toNat < N) (states : List mdp_info)
    (hall : ∀ s ∈ states, (s.out_if interface.toNat).registered = true ∧
      s.mdp_irq_mask &&& (s.out_if interface.toNat).dma_mask ≠ 0) :
    dma_wait_calls N ids interface 0 0 states =
      (if states.length ≤ 20 then .inr (states.length : Int) else .inl 21) ∧
    (∀ (count : Int) (s : mdp_info), count ≤ 20 →
      (s.out_if interface.toNat).registered = true →
      s.mdp_irq_mask &&& (s.out_if interface.toNat).dma_mask ≠ 0 →
      ((mdp_dma_wait N ids count s interface).fault_of = some .BUG ↔ count = 20)) ∧
    (∀ (count : Int) (s : mdp_info),
      (s.out_if interface.toNat).registered = true →
      s.mdp_irq_mask &&& (s.out_if interface.toNat).dma_mask = 0 →
      mdp_dma_wait N ids count s interface = .ok 0 s) := by
  refine ⟨?_, ?_, ?_⟩
  · rw [dma_wait_calls_timeouts N ids interface hk h0 hN states 0 0 (by omega) (by omega)
      hall]
    by_cases hle : states.length ≤ 20
    · have h1 : (0 : Int) + (states.length : Int) ≤ 20 := by omega
      simp [hle, h1]
    · have h1 : ¬ ((0 : Int) + (states.length : Int) ≤ 20) := by omega
      simp [hle, h1]
  · intro count s hc hr hp
    rw [mdp_dma_wait_timeout N ids count s interface hk h0 hN hr hp]
    by_cases hlast : count + 1 > 20
    · have : count = 20 := by omega
      simp [hlast, this, Res.fault_of]
    · have : count ≠ 20 := by omega
      simp [hlast, this, Res.fault_of]
  · intro count s hr hp
    exact mdp_dma_wait_success N ids count s interface hk h0 hN hr hp

theorem dma_wait_escalation_witness :
    dma_wait_calls 3 example_ids 0 0 0 (List.replicate 20 transfer_pending) = .inr 20 ∧
    dma_wait_calls 3 example_ids 0 0 0 (List.replicate 21 transfer_pending) = .inl 21 :=
  have h20 := (dma_wait_escalation 3 example_ids 0 (Or.inl rfl) (by decide) (by decide)
    (List.replicate 20 transfer_pending)
    (fun s hs => by rw [List.eq_of_mem_replicate hs]; decide)).1
  have h21 := (dma_wait_escalation 3 example_ids 0 (Or.inl rfl) (by decide) (by decide)
    (List.replicate 21 transfer_pending)
    (fun s hs => by rw [List.eq_of_mem_replicate hs]; decide)).1
  ⟨h20, h21⟩

/-! ## The interface registry -/

theorem locked_enable_out_if (s : mdp_info) (mask : Nat) :
    (locked_enable_mdp_irq s mask).state.out_if = s.out_if := by
  unfold locked_enable_mdp_irq
  by_cases hb : mask = 0 <;> by_cases hp : s.mdp_irq_mask &&& mask = 0 <;>
    by_cases h0 : s.mdp_irq_mask = 0 <;> simp [hb, hp, h0, Res.state, emit]

theorem locked_disable_out_if (s : mdp_info) (mask : Nat) :
    (locked_disable_mdp_irq s mask).2.out_if = s.out_if := by
  unfold locked_disable_mdp_irq
  by_cases hp : s.mdp_irq_mask &&& mask = 0 <;>
    by_cases h0 : s.mdp_irq_mask &&& not32 mask = 0 <;> simp [hp, h0, emit]

theorem clean_of_out_if (s s1 : mdp_info) (h : s1.out_if = s.out_if)
    (hc : unregistered_clean s) : unregistered_clean s1 := by
  intro j hj
  rw [h] at hj ⊢
  exact hc j hj

theorem clean_isr_iter (i status : Nat) (s : mdp_info) (hc : unregistered_clean s) :
    unregistered_clean (isr_iter i status s).state := by
  intro j
  have hcj := hc j
  have hci := hc i
  unfold isr_iter
  by_cases hji : j = i
  · subst hji
    by_cases hd : status &&& (s.out_if j).dma_mask = 0 <;>
      by_cases hi : status &&& (s.out_if j).irq_mask = 0 <;>
      cases hdc : (s.out_if j).dma_cb <;>
      cases hq : (s.out_if j).irq_cb <;>
      simp [hd, hi, hdc, hq, Res.state, emit, set_out_if] <;>
      simp_all
  · by_cases hd : status &&& (s.out_if i).dma_mask = 0 <;>
      by_cases hi : status &&& (s.out_if i).irq_mask = 0 <;>
      cases hdc : (s.out_if i).dma_cb <;>
      cases hq : (s.out_if i).irq_cb <;>
      simp [hd, hi, hdc, hq, Res.state, emit, set_out_if, hji] <;>
      exact hcj

theorem clean_isr_loop (status : Nat) (n : Nat) : ∀ (i : Nat) (s : mdp_info),
    unregistered_clean s → unregistered_clean (isr_loop status i n s).state := by
  induction n with
  | zero => intro i s h; simpa [isr_loop, Res.state] using h
  | succ n ih =>
    intro i s h
    have hi := clean_isr_iter i status s h
    unfold isr_loop
    cases hl : isr_iter i status s with
    | ok r s1 =>
      rw [hl] at hi
      exact ih (i + 1) s1 hi
    | fault f s1 =>
      rw [hl] at hi
      simpa [Res.state] using hi

theorem clean_isr (N : Nat) (s : mdp_info) (raw : Nat) (h : unregistered_clean s) :
    unregistered_clean (mdp_isr N s raw).state := by
  have h1 : unregistered_clean (isr_loop (raw &&& s.mdp_irq_mask) 0 N
      (emit s [.mdp_readl .MDP_INTR_STATUS, .mdp_writel raw .MDP_INTR_CLEAR])).state :=
    clean_isr_loop _ N 0 _ (clean_of_out_if s _ rfl h)
  unfold mdp_isr
  simp only [emit] at h1 ⊢
  cases hl : isr_loop (raw &&& s.mdp_irq_mask) 0 N
      { s with trace := s.trace ++ [.mdp_readl .MDP_INTR_STATUS,
        .mdp_writel raw .MDP_INTR_CLEAR] } with
  | fault f s2 =>
    rw [hl] at h1
    simpa [Res.state] using h1
  | ok r s2 =>
    rw [hl] at h1
    simp only [Res.state] at h1 ⊢
    by_cases hz : raw &&& s.mdp_irq_mask = 0
    · simp only [ne_eq, hz, not_true_eq_false, if_false]
      exact clean_of_out_if s2 _ rfl h1
    · simp only [ne_eq, hz, not_false_eq_true, if_true]
      exact clean_of_out_if s2 _ ((locked_disable_out_if _ _).trans rfl) h1

theorem clean_set_registered (s : mdp_info) (i : Nat) (v : mdp_out_interface)
    (hv : v.registered = true) (h : unregistered_clean s) :
    unregistered_clean (set_out_if s i v) := by
  intro j hj
  by_cases hji : j = i
  · simp [set_out_if, hji, hv] at hj
  · simp only [set_out_if, hji, if_false] at hj ⊢
    exact h j hj

theorem clean_dma (N : Nat) (s : mdp_info) (addr stride width height x y : Nat)
    (callback : Option Nat) (interface : Int) (h : unregistered_clean s) :
    unregistered_clean (mdp_dma N s addr stride width height x y callback interface).state := by
  have he := locked_enable_out_if s (s.out_if interface.toNat).dma_mask
  unfold mdp_dma
  by_cases h1 : interface < 0 ∨ interface > (N : Int)
  · simpa [h1, Res.state] using clean_of_out_if s (emit s [.pr_err .unknown_interface]) rfl h
  · by_cases h2 : N ≤ interface.toNat
    · simpa [h1, h2, Res.state] using h
    · by_cases h3 : (s.out_if interface.toNat).registered = false
      · simpa [h1, h2, h3, Res.state] using
          clean_of_out_if s (emit s [.pr_err .unknown_interface]) rfl h
      · simp only [h1, h2, h3, if_false]
        cases hl : locked_enable_mdp_irq s (s.out_if interface.toNat).dma_mask with
        | fault f s1 =>
          rw [hl] at he
          simp only [Res.state] at he ⊢
          exact clean_of_out_if s s1 he h
        | ok ret s1 =>
          rw [hl] at he
          simp only [Res.state] at he ⊢
          have hs1 : unregistered_clean s1 := clean_of_out_if s s1 he h
          by_cases hr : ret = 0
          · have hset : unregistered_clean (set_out_if s1 interface.toNat
                { s1.out_if interface.toNat with dma_cb := callback }) := by
              apply clean_set_registered _ _ _ _ hs1
              rw [he]
              simpa using h3
            simp only [hr, ne_eq, not_true_eq_false, if_false]
            rw [if_neg (by decide : ¬ (true = false))]
            split_ifs
            · exact hset
            · exact clean_of_out_if _ _ rfl hset
          · simp only [ne_eq, hr, not_false_eq_true, if_true]
            exact clean_of_out_if s1 _ rfl hs1

theorem clean_req_irq (N : Nat) (s : mdp_info) (interface : Int) (mask : Nat)
    (cb : Option Nat) (h : unregistered_clean s) :
    unregistered_clean (mdp_out_if_req_irq N s interface mask cb).state := by
  have he := locked_enable_out_if s mask
  have hd := locked_disable_out_if s mask
  unfold mdp_out_if_req_irq
  by_cases h1 : interface < 0 ∨ interface ≥ (N : Int)
  · simp only [h1, if_true, Res.state]
    exact clean_of_out_if s _ rfl h
  · by_cases h2 : (s.out_if interface.toNat).registered = false
    · simp only [h1, h2, if_false, if_true, Res.state]
      exact clean_of_out_if s _ rfl h
    · have hreg : (s.out_if interface.toNat).registered = true := by simpa using h2
      by_cases hm : mask = 0
      · simp only [h1, h2, hm, if_false, ne_eq, not_true_eq_false, Res.state]
        rw [hm] at hd
        apply clean_set_registered _ _ _ _ (clean_of_out_if s _ hd h)
        rw [hd]
        exact hreg
      · simp only [h1, h2, hm, if_false, ne_eq, not_false_eq_true, if_true]
        cases hl : locked_enable_mdp_irq s mask with
        | fault f s1 =>
          rw [hl] at he
          simp only [Res.state] at he ⊢
          exact clean_of_out_if s s1 he h
        | ok ret s1 =>
          rw [hl] at he
          simp only [Res.state] at he ⊢
          have hs1 : unregistered_clean s1 := clean_of_out_if s s1 he h
          by_cases hr : ret = 0
          · simp only [hr, not_true_eq_false, if_false, Res.state]
            apply clean_set_registered _ _ _ _ hs1
            rw [he]
            exact hreg
          · simp only [hr, not_false_eq_true, if_true, Res.state]
            exact clean_of_out_if s1 _ rfl hs1

theorem clean_register (N : Nat) (s : mdp_info) (interface : Int)
    (private_data dma_mask dma_start : Nat) (h : unregistered_clean s) :
    unregistered_clean
      (mdp_out_if_register N s interface private_data dma_mask dma_start).2 := by
  unfold mdp_out_if_register
  by_cases h1 : interface < 0 ∨ interface ≥ (N : Int)
  · simp only [h1, if_true]
    exact clean_of_out_if s _ rfl h
  · by_cases h2 : (s.out_if interface.toNat).registered = true
    · simp only [h1, h2, if_false, if_true]
      exact clean_of_out_if s _ rfl h
    · simp only [h1, h2, if_false]
      exact clean_set_registered _ _ _ rfl (clean_of_out_if s _ rfl h)

theorem clean_step (N : Nat) (s : mdp_info) (c : Step) (h : unregistered_clean s) :
    unregistered_clean (step N s c).state := by
  cases c with
  | enable mask =>
    have := clean_of_out_if s _ (locked_enable_out_if s mask) h
    simpa [step, enable_mdp_irq, void_state] using this
  | disable mask => exact clean_of_out_if s _ (locked_disable_out_if s mask) h
  | dma addr stride width height x y callback interface =>
    exact clean_dma N s addr stride width height x y callback interface h
  | wait mask =>
    have : (mdp_wait s mask).2.out_if = s.out_if := by
      unfold mdp_wait
      by_cases hp : s.mdp_irq_mask &&& mask = 0
      · simp [hp]
      · simp only [ne_eq, hp, not_false_eq_true, if_true]
        exact (locked_disable_out_if _ _).trans rfl
    exact clean_of_out_if s _ this h
  | req_irq interface mask cb =>
    have := clean_req_irq N s interface mask cb h
    simpa [step, void_state] using this
  | isr raw => exact clean_isr N s raw h
  | register interface private_data dma_mask dma_start =>
    exact clean_register N s interface private_data dma_mask dma_start h

theorem clean_run (N : Nat) (steps : List Step) : ∀ (s : mdp_info),
    unregistered_clean s → unregistered_clean (run N s steps).state := by
  induction steps with
  | nil => intro s h; simpa [run, Res.state] using h
  | cons c rest ih =>
    intro s h
    have hs := clean_step N s c h
    unfold run
    cases hl : step N s c with
    | ok r s1 =>
      rw [hl] at hs
      exact ih s1 hs
    | fault f s1 =>
      rw [hl] at hs
      simpa [Res.state] using hs

/-- C14: let `s` be any state reached from a zero-initialised interface table by any
sequence of calls. `mdp_out_if_register` takes the invalid-interface exit (returns
`-EINVAL` after logging `invalid interface`) if and only if the index is outside
`0..N-1`, and the already-registered exit (returns `-EINVAL` after logging
`already registered`) if and only if the index is in range and the slot is registered;
on both exits only the log line is added, so the table and the mask are unchanged.
Otherwise it returns `0`, initialises the wait queue, and changes only that slot: it is
registered with the given private data, `dma_mask` and `dma_start`, and both `dma_cb`
and `irq_cb` are empty. -/
theorem register_spec (N : Nat) (s0 : mdp_info) (steps : List Step) (s : mdp_info)
    (hz : ∀ j, s0.out_if j = zero_slot) (hs : s = (run N s0 steps).state)
    (interface : Int) (private_data dma_mask dma_start : Nat) :
    (mdp_out_if_register N s interface private_data dma_mask dma_start =
        (-EINVAL, emit s [.pr_err .invalid_interface]) ↔
      (interface < 0 ∨ interface ≥ (N : Int))) ∧
    (mdp_out_if_register N s interface private_data dma_mask dma_start =
        (-EINVAL, emit s [.pr_err .already_registered]) ↔
      (0 ≤ interface ∧ interface < (N : Int) ∧
        (s.out_if interface.toNat).registered = true)) ∧
    ((0 ≤ interface ∧ interface < (N : Int) ∧
        (s.out_if interface.toNat).registered = false) →
      mdp_out_if_register N s interface private_data dma_mask dma_start =
        (0, { s with
          out_if := fun j => if j = interface.toNat then
            { registered := true, priv := private_data, dma_mask := dma_mask,
              irq_mask := (s.out_if interface.toNat).irq_mask, dma_start := dma_start,
              dma_cb := none, irq_cb := none }
            else s.out_if j
          trace := s.trace ++ [.init_waitqueue_head interface.toNat] })) := by
  have hclean : unregistered_clean s := by
    rw [hs]
    apply clean_run
    intro j _
    rw [hz j]
    rfl
  by_cases h1 : interface < 0 ∨ interface ≥ (N : Int)
  · have hR : mdp_out_if_register N s interface private_data dma_mask dma_start =
        (-EINVAL, emit s [.pr_err .invalid_interface]) := by
      simp [mdp_out_if_register, h1]
    have h2 : ¬ (0 ≤ interface ∧ interface < (N : Int)) := by omega
    rw [hR]
    refine ⟨by simp [h1], ?_, ?_⟩
    · constructor
      · intro he
        have := congrArg (fun p => p.2.trace) he
        simp [emit] at this
      · intro hh
        exact absurd ⟨hh.1, hh.2.1⟩ h2
    · intro hh
      exact absurd ⟨hh.1, hh.2.1⟩ h2
  · by_cases h3 : (s.out_if interface.toNat).registered = true
    · have hR : mdp_out_if_register N s interface private_data dma_mask dma_start =
          (-EINVAL, emit s [.pr_err .already_registered]) := by
        simp [mdp_out_if_register, h1, h3]
      have h2 : 0 ≤ interface ∧ interface < (N : Int) := by omega
      rw [hR]
      refine ⟨?_, by simp [h2, h3], ?_⟩
      · constructor
        · intro he
          have := congrArg (fun p => p.2.trace) he
          simp [emit] at this
        · intro hh
          exact absurd hh h1
      · intro hh
        rw [h3] at hh
        exact absurd hh.2.2 (by simp)
    · have h3f : (s.out_if interface.toNat).registered = false := by simpa using h3
      have hcb := hclean interface.toNat h3f
      have hR : mdp_out_if_register N s interface private_data dma_mask dma_start =
          (0, { s with
            out_if := fun j => if j = interface.toNat then
              { registered := true, priv := private_data, dma_mask := dma_mask,
                irq_mask := (s.out_if interface.toNat).irq_mask, dma_start := dma_start,
                dma_cb := none, irq_cb := none }
              else s.out_if j
            trace := s.trace ++ [.init_waitqueue_head interface.toNat] }) := by
        simp [mdp_out_if_register, h1, h3f, emit, set_out_if, hcb]
      rw [hR]
      refine ⟨?_, ?_, fun _ => rfl⟩
      · constructor
        · intro he
          have := congrArg (fun p => p.1) he
          simp [EINVAL] at this
        · intro hh
          exact absurd hh h1
      · constructor
        · intro he
          have := congrArg (fun p => p.1) he
          simp [EINVAL] at this
        · intro hh
          rw [h3f] at hh
          exact absurd hh.2.2 (by simp)

theorem register_spec_witness :
    (mdp_out_if_register 3 (run 3 (bare 0 (some 1)) scenario).state 3 9 2 7).1 = -EINVAL ∧
    (mdp_out_if_register 3 (run 3 (bare 0 (some 1)) scenario).state 0 9 2 7).1 = -EINVAL ∧
    (mdp_out_if_register 3 (run 3 (bare 0 (some 1)) scenario).state 1 9 2 7).1 = 0 ∧
    ((mdp_out_if_register 3 (run 3 (bare 0 (some 1)) scenario).state 1 9 2 7).2.out_if
      1).irq_cb = none :=
  have h3 := (register_spec 3 (bare 0 (some 1)) scenario _ (fun _ => rfl) rfl
    3 9 2 7).1.2 (by decide)
  have h0 := (register_spec 3 (bare 0 (some 1)) scenario _ (fun _ => rfl) rfl
    0 9 2 7).2.1.2 (by decide)
  have h1 := (register_spec 3 (bare 0 (some 1)) scenario _ (fun _ => rfl) rfl
    1 9 2 7).2.2 (by decide)
  ⟨by rw [h3], by rw [h0], by rw [h1], by rw [h1]; rfl⟩

/-! ## Outstanding callbacks -/

/-- Counterexample to C15 as stated: after register, submit (callback 42) and an
`mdp_wait` that times out, interface 0 still stores callback 42 although its DMA bit is
no longer in `mdp_irq_mask`; the next `mdp_dma` is accepted and overwrites it with 43,
and callback 42 has never been invoked. The same holds when the bit is released by
`disable_mdp_irq` instead of the timeout. -/
theorem stale_dma_cb_after_release :
    (timed_out_transfer.out_if 0).dma_cb = some 42 ∧
    timed_out_transfer.mdp_irq_mask &&& (timed_out_transfer.out_if 0).dma_mask = 0 ∧
    ((mdp_dma 3 timed_out_transfer 100 4 2 2 0 0 (some 43) 0).state.out_if 0).dma_cb =
      some 43 ∧
    (mdp_dma 3 timed_out_transfer 100 4 2 2 0 0 (some 43) 0).state.trace.count
      (.dma_cb_func 0 42) = 0 ∧
    (disabled_transfer.out_if 0).dma_cb = some 42 ∧
    disabled_transfer.mdp_irq_mask &&& (disabled_transfer.out_if 0).dma_mask = 0 := by
  decide

theorem land_release_keeps (m st d : Nat) (hm : m < 2 ^ 32) (h1 : st &&& d = 0)
    (h2 : m &&& d ≠ 0) : (m &&& not32 st) &&& d ≠ 0 := by
  intro h
  apply h2
  apply Nat.eq_of_testBit_eq
  intro i
  have a := congrArg (fun n => n.testBit i) h
  have b := congrArg (fun n => n.testBit i) h1
  simp only [Nat.testBit_and, testBit_not32, Nat.zero_testBit] at a b ⊢
  by_cases hi : i < 32
  · cases hmi : m.testBit i <;> cases hs : st.testBit i <;> cases hd : d.testBit i <;>
      simp_all
  · have : m.testBit i = false := by
      apply Nat.testBit_eq_false_of_lt
      exact Nat.lt_of_lt_of_le hm (Nat.pow_le_pow_right (by norm_num) (by omega))
    simp [this]

theorem lor_keeps (m e d : Nat) (h : m &&& d ≠ 0) : (m ||| e) &&& d ≠ 0 := by
  intro h0
  apply h
  apply Nat.eq_of_testBit_eq
  intro i
  have a := congrArg (fun n => n.testBit i) h0
  simp only [Nat.testBit_and, Nat.testBit_or, Nat.zero_testBit] at a ⊢
  cases hmi : m.testBit i <;> cases hd : d.testBit i <;> simp_all

theorem lor_land_self (m d : Nat) (h : d ≠ 0) : (m ||| d) &&& d ≠ 0 := by
  intro h0
  apply h
  apply Nat.eq_of_testBit_eq
  intro i
  have a := congrArg (fun n => n.testBit i) h0
  simp only [Nat.testBit_and, Nat.testBit_or, Nat.zero_testBit] at a ⊢
  cases hmi : m.testBit i <;> cases hd : d.testBit i <;> simp_all

/-- The two ways `mdp_dma` can leave the mask and the table: untouched (abort, fault or
busy), or accepted for a slot `i < N` whose non-zero `dma_mask` was not pending. -/
theorem mdp_dma_cases (N : Nat) (s : mdp_info) (addr stride width height x y : Nat)
    (callback : Option Nat) (interface : Int) :
    ((mdp_dma N s addr stride width height x y callback interface).state.mdp_irq_mask =
        s.mdp_irq_mask ∧
      (mdp_dma N s addr stride width height x y callback interface).state.out_if =
        s.out_if) ∨
    (∃ i, i < N ∧ (s.out_if i).dma_mask ≠ 0 ∧
      s.mdp_irq_mask &&& (s.out_if i).dma_mask = 0 ∧
      (mdp_dma N s addr stride width height x y callback interface).state.mdp_irq_mask =
        s.mdp_irq_mask ||| (s.out_if i).dma_mask ∧
      (mdp_dma N s addr stride width height x y callback interface).state.out_if =
        fun j => if j = i then { s.out_if i with dma_cb := callback } else s.out_if j) := by
  unfold mdp_dma
  by_cases h1 : interface < 0 ∨ interface > (N : Int)
  · left
    simp [h1, Res.state, emit]
  · by_cases h2 : N ≤ interface.toNat
    · left
      simp [h1, h2, Res.state]
    · by_cases h3 : (s.out_if interface.toNat).registered = false
      · left
        simp [h1, h2, h3, Res.state, emit]
      · simp only [h1, h2, h3, if_false]
        by_cases hb : (s.out_if interface.toNat).dma_mask = 0
        · left
          simp [locked_enable_mdp_irq, hb, Res.state]
        · by_cases hp : s.mdp_irq_mask &&& (s.out_if interface.toNat).dma_mask = 0
          · right
            refine ⟨interface.toNat, by omega, hb, hp, ?_, ?_⟩ <;>
              by_cases hds : (s.out_if interface.toNat).dma_start = 0 <;>
              simp [locked_enable_ok s _ hb hp, Res.state, emit, set_out_if, hds]
          · left
            simp [locked_enable_mdp_irq, hb, hp, Res.state, emit]

theorem dma_path_inv_dma (N : Nat) (s : mdp_info) (addr stride width height x y : Nat)
    (callback : Option Nat) (interface : Int) (h : dma_path_inv N s) :
    dma_path_inv N (mdp_dma N s addr stride width height x y callback interface).state := by
  obtain ⟨ha, hb, hc, he, hd⟩ := h
  rcases mdp_dma_cases N s addr stride width height x y callback interface with
    ⟨hm, ho⟩ | ⟨i, hi, hne, hdis, hm, ho⟩
  · refine ⟨by rw [hm]; exact ha, ?_, ?_, ?_, ?_⟩
    · intro j; rw [ho]; exact hb j
    · intro j; rw [ho]; exact hc j
    · intro j hj; rw [ho]; exact he j hj
    · intro j; rw [ho, hm]; exact hd j
  · refine ⟨?_, ?_, ?_, ?_, ?_⟩
    · rw [hm]
      exact Nat.or_lt_two_pow ha (hb i)
    · intro j
      rw [ho]
      by_cases hji : j = i
      · simpa [hji] using hb i
      · simpa [hji] using hb j
    · intro j
      rw [ho]
      by_cases hji : j = i
      · simp [hji, hc i]
      · simp [hji, hc j]
    · intro j hj
      rw [ho]
      have hji : j ≠ i := by omega
      simp [hji, he j hj]
    · intro j
      rw [ho, hm]
      by_cases hji : j = i
      · subst hji
        intro _
        simpa using lor_land_self s.mdp_irq_mask (s.out_if j).dma_mask hne
      · simp only [hji, if_false]
        intro hcb
        exact lor_keeps _ _ _ (hd j hcb)

theorem dma_path_inv_register (N : Nat) (s : mdp_info) (interface : Int)
    (private_data dma_mask dma_start : Nat) (hdm : dma_mask < 2 ^ 32)
    (h : dma_path_inv N s) :
    dma_path_inv N
      (mdp_out_if_register N s interface private_data dma_mask dma_start).2 := by
  obtain ⟨ha, hb, hc, he, hd⟩ := h
  unfold mdp_out_if_register
  by_cases h1 : interface < 0 ∨ interface ≥ (N : Int)
  · simp only [h1, if_true]
    exact ⟨ha, hb, hc, he, hd⟩
  · by_cases h2 : (s.out_if interface.toNat).registered = true
    · simp only [h1, h2, if_false, if_true]
      exact ⟨ha, hb, hc, he, hd⟩
    · simp only [h1, h2, if_false]
      refine ⟨ha, ?_, ?_, ?_, ?_⟩
      · intro j
        by_cases hji : j = interface.toNat
        · simpa [set_out_if, emit, hji] using hdm
        · simpa [set_out_if, emit, hji] using hb j
      · intro j
        by_cases hji : j = interface.toNat
        · simpa [set_out_if, emit, hji] using hc interface.toNat
        · simpa [set_out_if, emit, hji] using hc j
      · intro j hj
        by_cases hji : j = interface.toNat
        · simp [set_out_if, emit, hji]
        · simpa [set_out_if, emit, hji] using he j hj
      · intro j
        by_cases hji : j = interface.toNat
        · simp [set_out_if, emit, hji]
        · simpa [set_out_if, emit, hji] using hd j

theorem dma_path_inv_isr (N : Nat) (s : mdp_info) (raw : Nat) (h : dma_path_inv N s) :
    (mdp_isr N s raw).fault_of = none ∧ dma_path_inv N (mdp_isr N s raw).state := by
  obtain ⟨ha, hb, hc, he, hd⟩ := h
  have hp : irq_cbs_present N s (raw &&& s.mdp_irq_mask) := by
    intro j _ hj
    rw [hc j] at hj
    simp at hj
  refine ⟨(mdp_isr_returns_iff N s raw).2 hp, ?_⟩
  rw [mdp_isr_ok N s raw hp]
  simp only [Res.state]
  have hmle : (if raw &&& s.mdp_irq_mask = 0 then s.mdp_irq_mask
      else s.mdp_irq_mask &&& not32 (raw &&& s.mdp_irq_mask)) < 2 ^ 32 := by
    by_cases hz : raw &&& s.mdp_irq_mask = 0
    · simpa [hz] using ha
    · simp only [hz, if_false]
      exact Nat.lt_of_le_of_lt Nat.and_le_left ha
  refine ⟨hmle, ?_, ?_, ?_, ?_⟩
  · intro j
    by_cases hj : j < N
    · simpa [hj, serviced] using hb j
    · simpa [hj] using hb j
  · intro j
    by_cases hj : j < N
    · simpa [hj, serviced] using hc j
    · simpa [hj] using hc j
  · intro j hj
    have hj2 : ¬ j < N := by omega
    simpa [hj2] using he j hj
  · intro j
    simp only
    by_cases hj : j < N
    · simp only [hj, if_true, serviced]
      by_cases hst : (raw &&& s.mdp_irq_mask) &&& (s.out_if j).dma_mask = 0
      · simp only [hst, ne_eq, not_true_eq_false, if_false]
        intro hcb
        have hold := hd j hcb
        by_cases hz : raw &&& s.mdp_irq_mask = 0
        · simpa [hz] using hold
        · simp only [hz, if_false]
          exact land_release_keeps _ _ _ ha hst hold
      · simp [hst]
    · have hj2 : N ≤ j := by omega
      simp [hj, he j hj2]

theorem dma_path_inv_step (N : Nat) (s : mdp_info) (c : Step) (hq : dma_path s c = true)
    (h : dma_path_inv N s) : dma_path_inv N (step N s c).state := by
  cases c with
  | enable mask => simp [dma_path] at hq
  | disable mask => simp [dma_path] at hq
  | dma addr stride width height x y callback interface =>
    exact dma_path_inv_dma N s addr stride width height x y callback interface h
  | wait mask =>
    have hp : s.mdp_irq_mask &&& mask = 0 := by simpa [dma_path] using hq
    simpa [step, mdp_wait, hp, Res.state] using h
  | req_irq interface mask cb => simp [dma_path] at hq
  | isr raw => exact (dma_path_inv_isr N s raw h).2
  | register interface private_data dma_mask dma_start =>
    have hdm : dma_mask < 2 ^ 32 := by simpa [dma_path] using hq
    exact dma_path_inv_register N s interface private_data dma_mask dma_start hdm h

theorem dma_path_inv_run (N : Nat) (steps : List Step) : ∀ (s : mdp_info),
    dma_path_run N s steps = true → dma_path_inv N s →
    dma_path_inv N (run N s steps).state := by
  induction steps with
  | nil => intro s _ h; simpa [run, Res.state] using h
  | cons c rest ih =>
    intro s hq h
    simp only [dma_path_run, Bool.and_eq_true] at hq
    have hs := dma_path_inv_step N s c hq.1 h
    have hq2 := hq.2
    unfold run
    cases hl : step N s c with
    | ok r s1 =>
      rw [hl] at hs hq2
      exact ih s1 hq2 hs
    | fault f s1 =>
      rw [hl] at hs
      simpa [Res.state] using hs

/-- C15 (amended): in every state reached from a zero-initialised driver through
registrations (with 32-bit masks), `mdp_dma` calls, interrupt-handler runs and `mdp_wait`
calls whose re-check finds no waited bit pending, an interface's `dma_cb` is non-empty
only while a bit of its `dma_mask` is set in `mdp_irq_mask`. Hence whenever `mdp_dma`
would be accepted for a slot (its non-zero `dma_mask` is disjoint from the mask) the
slot stores no callback, so no stored callback is overwritten before it was invoked. -/
theorem dma_cb_only_while_pending (N : Nat) (s0 : mdp_info) (steps : List Step)
    (hz : ∀ j, s0.out_if j = zero_slot) (hm : s0.mdp_irq_mask = 0)
    (hq : dma_path_run N s0 steps = true) :
    (∀ j, ((run N s0 steps).state.out_if j).dma_cb ≠ none →
      (run N s0 steps).state.mdp_irq_mask &&&
        ((run N s0 steps).state.out_if j).dma_mask ≠ 0) ∧
    (∀ i, (run N s0 steps).state.mdp_irq_mask &&&
        ((run N s0 steps).state.out_if i).dma_mask = 0 →
      ((run N s0 steps).state.out_if i).dma_cb = none) := by
  have h0 : dma_path_inv N s0 := by
    refine ⟨by rw [hm]; norm_num, ?_, ?_, ?_, ?_⟩
    · intro j; rw [hz j]; simp [zero_slot]
    · intro j; rw [hz j]; rfl
    · intro j _; rw [hz j]; rfl
    · intro j hj
      rw [hz j] at hj
      exact absurd rfl hj
  have hinv := (dma_path_inv_run N steps s0 hq h0).2.2.2.2
  refine ⟨hinv, ?_⟩
  intro i hi
  by_contra hcb
  exact hinv i hcb hi

theorem dma_cb_only_while_pending_witness :
    (transfer_pending.out_if 0).dma_cb = some 42 ∧
    transfer_pending.mdp_irq_mask &&& (transfer_pending.out_if 0).dma_mask ≠ 0 ∧
    ((run 3 (bare 0 (some 1)) scenario).state.out_if 0).dma_cb = none :=
  have h := dma_cb_only_while_pending 3 (bare 0 (some 1))
    [.register 0 9 1 7, .dma 100 4 2 2 0 0 (some 42) 0] (fun _ => rfl) rfl (by decide)
  have h2 := dma_cb_only_while_pending 3 (bare 0 (some 1)) scenario (fun _ => rfl) rfl
    (by decide)
  ⟨by decide, h.1 0 (by decide), h2.2 0 (by decide)⟩

/-! ## The secondary interrupt request -/

/-- C16 (the code at the failing inputs): after registering interface 0 and requesting
its secondary interrupt bit 4 with a `NULL` callback, the handler run with status 4
finds the bit in the intersected status while `irq_cb` is `NULL`, and ends in the call
through the `NULL` pointer. The same happens with non-empty callbacks only: once the
handler has consumed callback 5 it leaves `irq_mask` at 4, so after bit 4 is enabled
again through `enable_mdp_irq` the next run with status 4 calls the cleared `irq_cb`. -/
theorem isr_calls_null_irq_cb :
    (run 3 (bare 0 (some 1)) null_irq_request).fault_of = none ∧
    (4 &&& (run 3 (bare 0 (some 1)) null_irq_request).state.mdp_irq_mask) &&&
      ((run 3 (bare 0 (some 1)) null_irq_request).state.out_if 0).irq_mask ≠ 0 ∧
    ((run 3 (bare 0 (some 1)) null_irq_request).state.out_if 0).irq_cb = none ∧
    (mdp_isr 3 (run 3 (bare 0 (some 1)) null_irq_request).state 4).fault_of =
      some .null_call ∧
    (run 3 (bare 0 (some 1)) stale_irq_mask).fault_of = none ∧
    (run 3 (bare 0 (some 1)) stale_irq_mask).state.trace.count (.irq_cb_func 0 5) = 1 ∧
    ((run 3 (bare 0 (some 1)) stale_irq_mask).state.out_if 0).irq_mask = 4 ∧
    ((run 3 (bare 0 (some 1)) stale_irq_mask).state.out_if 0).irq_cb = none ∧
    (mdp_isr 3 (run 3 (bare 0 (some 1)) stale_irq_mask).state 4).fault_of =
      some .null_call := by
  decide

/-- C17: for every state and every registered interface `i < N`, `mdp_out_if_req_irq` with
mask `0` returns `0`; its inner `locked_disable_mdp_irq` with mask `0` is rejected and
only logs, so `mdp_irq_mask` is unchanged, no register is written and nothing is powered
down; slot `i` gets `irq_mask = 0` and an empty `irq_cb` and no other slot changes. In
particular the bits enabled by an earlier accepted request with a non-zero mask are still
pending afterwards. A request with a non-zero mask that overlaps `mdp_irq_mask` returns
`-1` having only logged, so `irq_mask`, `irq_cb` and `mdp_irq_mask` are unchanged. -/
theorem req_irq_zero_and_busy (N : Nat) (s : mdp_info) (i : Nat) (cb : Option Nat)
    (hi : i < N) (hr : (s.out_if i).registered = true) :
    mdp_out_if_req_irq N s (i : Int) 0 cb = .ok 0
      { s with
        out_if := fun j => if j = i then { s.out_if i with irq_mask := 0, irq_cb := none }
          else s.out_if j
        trace := s.trace ++ [.pr_err .irq_already_off] } ∧
    (mdp_out_if_req_irq N s (i : Int) 0 cb).state.mdp_irq_mask = s.mdp_irq_mask ∧
    hw_writes (mdp_out_if_req_irq N s (i : Int) 0 cb).state.trace = hw_writes s.trace ∧
    (∀ mask cb1, mask ≠ 0 → s.mdp_irq_mask &&& mask = 0 →
      (mdp_out_if_req_irq N (mdp_out_if_req_irq N s (i : Int) mask cb1).state
        (i : Int) 0 cb).state.mdp_irq_mask = s.mdp_irq_mask ||| mask) ∧
    (∀ mask, mask ≠ 0 → s.mdp_irq_mask &&& mask ≠ 0 →
      mdp_out_if_req_irq N s (i : Int) mask cb =
        .ok (-1) (emit s [.pr_err .irq_already_on, .pr_err .busy])) := by
  have h1 : ¬ ((i : Int) < 0 ∨ (i : Int) ≥ (N : Int)) := by omega
  have hzero : ∀ (s1 : mdp_info), (s1.out_if i).registered = true →
      mdp_out_if_req_irq N s1 (i : Int) 0 cb = .ok 0
        { s1 with
          out_if := fun j => if j = i then { s1.out_if i with irq_mask := 0, irq_cb := none }
            else s1.out_if j
          trace := s1.trace ++ [.pr_err .irq_already_off] } := by
    intro s1 hr1
    simp [mdp_out_if_req_irq, h1, hi, hr1, locked_disable_mdp_irq, emit, set_out_if]
  refine ⟨hzero s hr, ?_, ?_, ?_, ?_⟩
  · rw [hzero s hr]
    rfl
  · rw [hzero s hr]
    simp [Res.state, hw_writes, Action.hw_write]
  · intro mask cb1 hm hd
    have he : mdp_out_if_req_irq N s (i : Int) mask cb1 = .ok 0
        (set_out_if
          { s with
            mdp_irq_mask := s.mdp_irq_mask ||| mask
            trace := s.trace ++
              (if s.mdp_irq_mask = 0 then
                [.clk_set_rate 128000000, .clk_enable s.clk, .enable_irq] else []) ++
              [.mdp_writel mask .MDP_INTR_CLEAR,
               .mdp_writel (s.mdp_irq_mask ||| mask) .MDP_INTR_ENABLE] }
          i { s.out_if i with irq_mask := mask, irq_cb := cb1 }) := by
      simp [mdp_out_if_req_irq, h1, hi, hr, hm, locked_enable_ok s mask hm hd]
    rw [he]
    simp only [Res.state]
    rw [hzero _ (by simp [set_out_if, hr])]
    rfl
  · intro mask hm hp
    simp [mdp_out_if_req_irq, h1, hi, hr, hm, hp, locked_enable_mdp_irq, emit]

theorem req_irq_zero_and_busy_witness :
    (mdp_out_if_req_irq 3 (one_registered 5) ((0 : Nat) : Int) 0 (some 8)).state.mdp_irq_mask
      = 5 ∧
    hw_writes
      (mdp_out_if_req_irq 3 (one_registered 5) ((0 : Nat) : Int) 0 (some 8)).state.trace
      = [] ∧
    (mdp_out_if_req_irq 3
      (mdp_out_if_req_irq 3 (one_registered 5) ((0 : Nat) : Int) 2 (some 8)).state
      ((0 : Nat) : Int) 0 (some 8)).state.mdp_irq_mask = 7 ∧
    mdp_out_if_req_irq 3 (one_registered 5) ((0 : Nat) : Int) 4 (some 8) =
      .ok (-1) (emit (one_registered 5) [.pr_err .irq_already_on, .pr_err .busy]) :=
  have h := req_irq_zero_and_busy 3 (one_registered 5) 0 (some 8) (by decide) (by decide)
  ⟨h.2.1, h.2.2.1, h.2.2.2.1 2 (some 8) (by decide) (by decide),
    h.2.2.2.2 4 (by decide) (by decide)⟩

end Mdp
